import Mathlib

/-!
# SnakeGame: a shallow embedding of `script.js`

The class `SnakeGame` of `script.js` is embedded as a record of the fields its
simulation reads and writes, and each method as a function on that record.
Canvas drawing, DOM updates and `localStorage` have no effect on these fields
and are left out.  `Math.random` is an explicit argument: a stream
`rnd : Nat → ℚ` whose `i`-th value is the result of the `i`-th call that
`generateFood` makes during the method; the calls made for the particle effect
(`createSparkleBurst`, 24 calls before `generateFood` on a food tick) only feed
the drawing and are not listed in the stream.  `Math.random() * tileCount` is
the exact product, floored; the rounding of the double product is not
modelled.  `tileCount` is `canvas.width / gridSize`; the canvas is declared in
the page, so it is a field of the record and a parameter of the constructor.
Frame timestamps are integer milliseconds (fractional timestamps are not
modelled), and the `while` loop of `gameLoop` is bounded by a number of passes
`fuel`; the loop is proved to end within the bound whenever the bound exceeds
the accumulated time.
-/

namespace SnakeGame

/-- A grid cell `{ x, y }`. -/
structure Cell where
  x : Int
  y : Int
  deriving DecidableEq, Repr

end SnakeGame

/-- The fields of `class SnakeGame` that the simulation reads or writes. -/
structure SnakeGame where
  tileCount : Int
  gameRunning : Bool
  gamePaused : Bool
  score : Int
  highScore : Int
  snake : List SnakeGame.Cell
  dx : Int
  dy : Int
  speed : Int
  lastUpdateTime : Int
  accumulator : Int
  previousSnake : List SnakeGame.Cell
  interpolationFactor : ℚ
  food : SnakeGame.Cell
  deriving DecidableEq

namespace SnakeGame

/-- The constant `maxAttempts` of `generateFood`. -/
def maxAttempts : Nat := 100

/-- The test `this.snake.some(segment => segment.x === c.x && segment.y === c.y)`. -/
def occupied (snake : List Cell) (c : Cell) : Bool :=
  snake.any (fun segment => segment.x == c.x && segment.y == c.y)

/-- The cell sampled by the `k`-th pass (from 0) through the body of the
`do ... while` loop of `generateFood`:
`{ x: Math.floor(Math.random() * tileCount), y: Math.floor(Math.random() * tileCount) }`. -/
def sampleCell (tileCount : Int) (rnd : Nat → ℚ) (k : Nat) : Cell :=
  { x := Int.floor (rnd (2 * k) * (tileCount : ℚ)),
    y := Int.floor (rnd (2 * k + 1) * (tileCount : ℚ)) }

/-- The `do ... while` loop of `generateFood`, entered with `attempts` passes
already made; returns the last `newFood` and the final value of `attempts`. -/
def generateFoodLoop (g : SnakeGame) (rnd : Nat → ℚ) (attempts : Nat) : Cell × Nat :=
  let newFood := sampleCell g.tileCount rnd attempts
  if occupied g.snake newFood && decide (attempts + 1 < maxAttempts) then
    generateFoodLoop g rnd (attempts + 1)
  else
    (newFood, attempts + 1)
termination_by maxAttempts - attempts
decreasing_by
  simp_wf
  simp only [Bool.and_eq_true, decide_eq_true_eq] at *
  omega

/-- The method `generateFood()`. -/
def generateFood (g : SnakeGame) (rnd : Nat → ℚ) : Cell :=
  let r := generateFoodLoop g rnd 0
  if r.2 ≥ maxAttempts then { x := 1, y := 1 } else r.1

/-- The method `gameOver()`. -/
def gameOver (g : SnakeGame) : SnakeGame :=
  let g1 : SnakeGame := { g with gameRunning := false, gamePaused := false }
  if g1.score > g1.highScore then { g1 with highScore := g1.score } else g1

/-- The candidate head of `update`:
`{ x: this.snake[0].x + this.dx, y: this.snake[0].y + this.dy }`;
`none` when `this.snake[0]` is undefined. -/
def candidateHead (g : SnakeGame) : Option Cell :=
  match g.snake with
  | [] => none
  | s0 :: _ => some { x := s0.x + g.dx, y := s0.y + g.dy }

/-- The wall test of `update`. -/
def wallCollision (g : SnakeGame) (head : Cell) : Bool :=
  decide (head.x < 0) || decide (head.x ≥ g.tileCount) ||
    decide (head.y < 0) || decide (head.y ≥ g.tileCount)

/-- The self-collision test of `update`. -/
def selfCollision (g : SnakeGame) (head : Cell) : Bool :=
  occupied g.snake head

/-- The food test of `update`. -/
def foodCollision (g : SnakeGame) (head : Cell) : Bool :=
  head.x == g.food.x && head.y == g.food.y

/-- The method `update()`; `none` is the `TypeError` raised by `this.snake[0].x`
on an empty snake. The calls `updateScore()` and `createEatingEffect(...)` of
the food branch touch only the page and the particles and are left out. -/
def update (g : SnakeGame) (rnd : Nat → ℚ) : Option SnakeGame :=
  if !g.gameRunning || g.gamePaused then some g
  else
    let g1 : SnakeGame := { g with previousSnake := g.snake }
    match candidateHead g1 with
    | none => none
    | some head =>
      if wallCollision g1 head then some (gameOver g1)
      else if selfCollision g1 head then some (gameOver g1)
      else
        let g2 : SnakeGame := { g1 with snake := head :: g1.snake }
        if foodCollision g2 head then
          let g3 : SnakeGame := { g2 with score := g2.score + 10 }
          let g4 : SnakeGame := { g3 with food := generateFood g3 rnd }
          let g5 : SnakeGame := if g4.score.tmod 50 = 0 ∧ g4.speed > 50
            then { g4 with speed := g4.speed - 10 } else g4
          some { g5 with interpolationFactor := 0 }
        else
          let g3 : SnakeGame := { g2 with snake := g2.snake.dropLast }
          some { g3 with interpolationFactor := 0 }

/-- The method `togglePause()`. -/
def togglePause (g : SnakeGame) : SnakeGame :=
  if g.gameRunning then { g with gamePaused := !g.gamePaused } else g

/-- The method `startGame()`. -/
def startGame (g : SnakeGame) : SnakeGame :=
  if !g.gameRunning then
    { g with gameRunning := true, gamePaused := false, dx := 1, dy := 0 }
  else g

/-- The method `restartGame()`. -/
def restartGame (g : SnakeGame) (rnd : Nat → ℚ) : SnakeGame :=
  let g1 : SnakeGame := { g with snake := [{ x := 10, y := 10 }], dx := 0, dy := 0, score := 0 }
  let g2 : SnakeGame := { g1 with food := generateFood g1 rnd }
  { g2 with gameRunning := false, gamePaused := false,
            previousSnake := [], interpolationFactor := 0, accumulator := 0 }

/-- The method `handleKeyPress(e)`, as a function of `e.key`. -/
def handleKeyPress (g : SnakeGame) (key : String) : SnakeGame :=
  if !g.gameRunning then g
  else if key = "ArrowUp" ∨ key = "w" ∨ key = "W" then
    if g.dy ≠ 1 then { g with dx := 0, dy := -1 } else g
  else if key = "ArrowDown" ∨ key = "s" ∨ key = "S" then
    if g.dy ≠ -1 then { g with dx := 0, dy := 1 } else g
  else if key = "ArrowLeft" ∨ key = "a" ∨ key = "A" then
    if g.dx ≠ 1 then { g with dx := -1, dy := 0 } else g
  else if key = "ArrowRight" ∨ key = "d" ∨ key = "D" then
    if g.dx ≠ -1 then { g with dx := 1, dy := 0 } else g
  else if key = " " then togglePause g
  else g

/-- The `touchend` listener of `setupTouchControls()`, as a function of the
coordinates recorded by `touchstart` and those of the ending touch. -/
def touchEnd (g : SnakeGame) (touchStartX touchStartY touchEndX touchEndY : Int) : SnakeGame :=
  let deltaX := touchEndX - touchStartX
  let deltaY := touchEndY - touchStartY
  if |deltaX| > |deltaY| then
    if deltaX > 0 ∧ g.dx ≠ -1 then { g with dx := 1, dy := 0 }
    else if deltaX < 0 ∧ g.dx ≠ 1 then { g with dx := -1, dy := 0 }
    else g
  else
    if deltaY > 0 ∧ g.dy ≠ -1 then { g with dx := 0, dy := 1 }
    else if deltaY < 0 ∧ g.dy ≠ 1 then { g with dx := 0, dy := -1 }
    else g

/-- The fields set by the constructor, before `this.food = this.generateFood()`. -/
def constructorFields (tileCount highScore : Int) : SnakeGame :=
  { tileCount := tileCount, gameRunning := false, gamePaused := false,
    score := 0, highScore := highScore,
    snake := [{ x := 10, y := 10 }], dx := 0, dy := 0, speed := 150,
    lastUpdateTime := 0, accumulator := 0,
    previousSnake := [], interpolationFactor := 0,
    food := { x := 0, y := 0 } }

/-- The state built by `new SnakeGame()`, for a canvas of `tileCount` tiles and
a stored high score `highScore`. -/
def new (tileCount highScore : Int) (rnd : Nat → ℚ) : SnakeGame :=
  let g : SnakeGame := constructorFields tileCount highScore
  { g with food := generateFood g rnd }

/-- The direction `(dx, dy)` that a key asks for, when it is a direction key. -/
def keyDirection (key : String) : Option (Int × Int) :=
  if key = "ArrowUp" ∨ key = "w" ∨ key = "W" then some (0, -1)
  else if key = "ArrowDown" ∨ key = "s" ∨ key = "S" then some (0, 1)
  else if key = "ArrowLeft" ∨ key = "a" ∨ key = "A" then some (-1, 0)
  else if key = "ArrowRight" ∨ key = "d" ∨ key = "D" then some (1, 0)
  else none

/-- The direction `(dx, dy)` that a swipe of `(deltaX, deltaY)` asks for, when
it asks for one. -/
def swipeDirection (deltaX deltaY : Int) : Option (Int × Int) :=
  if |deltaX| > |deltaY| then
    if deltaX > 0 then some (1, 0) else if deltaX < 0 then some (-1, 0) else none
  else
    if deltaY > 0 then some (0, 1) else if deltaY < 0 then some (0, -1) else none

/-- One operation on the game: a button, a key, a swipe or a tick, with the
values `Math.random` returns to `generateFood` during it. -/
inductive Op where
  | startGame
  | togglePause
  | restartGame (rnd : Nat → ℚ)
  | key (k : String)
  | touch (touchStartX touchStartY touchEndX touchEndY : Int)
  | update (rnd : Nat → ℚ)

/-- The effect of one operation; `none` when `update` raises. -/
def Op.apply (g : SnakeGame) : Op → Option SnakeGame
  | .startGame => some (SnakeGame.startGame g)
  | .togglePause => some (SnakeGame.togglePause g)
  | .restartGame rnd => some (SnakeGame.restartGame g rnd)
  | .key k => some (handleKeyPress g k)
  | .touch sx sy ex ey => some (touchEnd g sx sy ex ey)
  | .update rnd => SnakeGame.update g rnd

/-- The states the game can be in: the state built by the constructor and
every state an operation yields from such a state. -/
inductive Reachable (tileCount : Int) : SnakeGame → Prop where
  | init (highScore : Int) (rnd : Nat → ℚ) : Reachable tileCount (new tileCount highScore rnd)
  | step (g g1 : SnakeGame) (op : Op) :
      Reachable tileCount g → op.apply g = some g1 → Reachable tileCount g1

/-- The cell lies in the grid: `0 ≤ x, y < tileCount`. -/
def inGrid (tileCount : Int) (c : Cell) : Prop :=
  0 ≤ c.x ∧ c.x < tileCount ∧ 0 ≤ c.y ∧ c.y < tileCount

instance (tileCount : Int) (c : Cell) : Decidable (inGrid tileCount c) := by
  unfold inGrid; infer_instance

/-- The state of the first scenario: a running game with snake `[(10,10)]`
heading right on a grid of 20 tiles, food at `(5,5)`. -/
def scenarioRight : SnakeGame :=
  { constructorFields 20 0 with gameRunning := true, dx := 1, dy := 0, food := { x := 5, y := 5 } }

/-- A running game whose head is one step left of the food. -/
def scenarioFood : SnakeGame :=
  { constructorFields 20 0 with
    gameRunning := true, dx := 1, dy := 0, score := 40, food := { x := 11, y := 10 } }

/-- A running game whose snake of four cells is about to step onto its own
last segment. -/
def scenarioTail : SnakeGame :=
  { constructorFields 20 0 with
    gameRunning := true, dx := 1, dy := 0, score := 30,
    snake := [{ x := 5, y := 5 }, { x := 5, y := 6 }, { x := 6, y := 6 }, { x := 6, y := 5 }] }

/-- The state of the second scenario: a running game with snake
`[(1,10),(0,10)]`, head first, heading left on a grid of 20 tiles. -/
def scenarioLeft : SnakeGame :=
  { constructorFields 20 0 with
    gameRunning := true, dx := -1, dy := 0,
    snake := [{ x := 1, y := 10 }, { x := 0, y := 10 }], food := { x := 5, y := 5 } }

/-- A game on 20 tiles whose snake is the single cell `(0,0)`. -/
def scenarioCorner : SnakeGame :=
  { constructorFields 20 0 with snake := [{ x := 0, y := 0 }] }

/-- A run of `Math.random` that returns 0 for its first 198 calls and 1/2
afterwards: the first 99 sampled cells are `(0,0)`, the 100th is `(10,10)`. -/
def rndLate : Nat → ℚ := fun i => if i < 198 then 0 else 1 / 2

/-- The state in which `update` calls `generateFood` on a food tick: the new
head is already on the snake and the score already raised. -/
def grown (g : SnakeGame) (head : Cell) : SnakeGame :=
  { g with previousSnake := g.snake, snake := head :: g.snake, score := g.score + 10 }

/-- The direction an operation asks for, when it is a direction request: a
direction key or a swipe. -/
def Op.direction : Op → Option (Int × Int)
  | .key k => keyDirection k
  | .touch sx sy ex ey => swipeDirection (ex - sx) (ey - sy)
  | _ => none

/-- The snake is well formed on a grid of `tileCount` tiles: it has a head,
no cell twice, and every cell in the grid. -/
def SnakeOk (tileCount : Int) (g : SnakeGame) : Prop :=
  g.tileCount = tileCount ∧ g.snake ≠ [] ∧ g.snake.Nodup ∧ ∀ c ∈ g.snake, inGrid tileCount c

/-- A paused game: snake `[(10,10)]` heading right on 20 tiles. -/
def scenarioPaused : SnakeGame :=
  { scenarioRight with gamePaused := true }

/-- A running game with snake `[(10,10),(9,10)]` heading right on 20 tiles. -/
def scenarioNeck : SnakeGame :=
  { constructorFields 20 0 with
    gameRunning := true, dx := 1, dy := 0,
    snake := [{ x := 10, y := 10 }, { x := 9, y := 10 }], food := { x := 5, y := 5 } }

/-- A running game heading down, about to be asked to go up. -/
def scenarioDown : SnakeGame :=
  { scenarioRight with dx := 0, dy := 1 }

/-- The state one tick after `scenarioNeck`: the snake has moved right. -/
def scenarioTicked : SnakeGame :=
  { scenarioNeck with
    snake := [{ x := 11, y := 10 }, { x := 10, y := 10 }],
    previousSnake := [{ x := 10, y := 10 }, { x := 9, y := 10 }] }

/-- The state `scenarioTicked` with the direction turned to left. -/
def scenarioTurned : SnakeGame :=
  { scenarioTicked with dx := -1, dy := 0 }

/-- How a call of `gameLoop` ends: it returns, with the state it leaves and the
number of times it called `update`; or `update` raised; or the model's bound on
the passes through the `while` loop was reached. -/
inductive LoopResult where
  | done (g : SnakeGame) (calls : Nat)
  | raised
  | fuelOut
  deriving DecidableEq

/-- The state a finished frame leaves. -/
def LoopResult.state? : LoopResult → Option SnakeGame
  | .done g _ => some g
  | _ => none

/-- The number of calls of `update` a finished frame made. -/
def LoopResult.calls? : LoopResult → Option Nat
  | .done _ calls => some calls
  | _ => none

/-- The loop `while (this.accumulator >= this.speed) { this.update();
this.accumulator -= this.speed; }` of `gameLoop`, bounded by `fuel` passes;
`calls` counts the calls of `update` made so far, and `rnds i` is what
`Math.random` returns to `generateFood` during the `i`-th call. -/
def tickLoop (rnds : Nat → Nat → ℚ) : Nat → SnakeGame → Nat → LoopResult
  | 0, _, _ => .fuelOut
  | fuel + 1, g, calls =>
    if g.accumulator ≥ g.speed then
      match update g (rnds calls) with
      | none => .raised
      | some g1 =>
        tickLoop rnds fuel { g1 with accumulator := g1.accumulator - g1.speed } (calls + 1)
    else .done g calls

/-- The method `gameLoop(currentTime)`, up to the call of `draw()`. -/
def gameLoop (g : SnakeGame) (currentTime : Int) (rnds : Nat → Nat → ℚ) (fuel : Nat) :
    LoopResult :=
  let deltaTime := currentTime - g.lastUpdateTime
  let g1 : SnakeGame := { g with lastUpdateTime := currentTime }
  let g2 : SnakeGame := { g1 with accumulator := g1.accumulator + deltaTime }
  match tickLoop rnds fuel g2 0 with
  | .done g3 calls =>
    .done { g3 with interpolationFactor := (g3.accumulator : ℚ) / (g3.speed : ℚ) } calls
  | r => r

/-- The tick interval is one the speed schedule can produce: a multiple of 10
not below 50. -/
def SpeedOk (g : SnakeGame) : Prop :=
  50 ≤ g.speed ∧ 10 ∣ g.speed

/-- The states the game can be in when frames of `gameLoop` are counted among
the operations. -/
inductive ReachableLoop (tileCount : Int) : SnakeGame → Prop where
  | init (highScore : Int) (rnd : Nat → ℚ) :
      ReachableLoop tileCount (new tileCount highScore rnd)
  | step (g g1 : SnakeGame) (op : Op) :
      ReachableLoop tileCount g → op.apply g = some g1 → ReachableLoop tileCount g1
  | frame (g g1 : SnakeGame) (currentTime : Int) (rnds : Nat → Nat → ℚ) (fuel calls : Nat) :
      ReachableLoop tileCount g → gameLoop g currentTime rnds fuel = .done g1 calls →
      ReachableLoop tileCount g1

/-- The effect of a sequence of operations, first operation first. -/
def run (g : SnakeGame) : List Op → Option SnakeGame
  | [] => some g
  | op :: ops => (op.apply g).bind (fun g1 => run g1 ops)

/-- The frames of `gameLoop` for a list of timestamps, first frame first: for
each frame the number of calls of `update` and the state it leaves; `rndss k`
is what `Math.random` returns to `generateFood` during the `k`-th frame. -/
def frames (rndss : Nat → Nat → Nat → ℚ) (fuel : Nat) :
    SnakeGame → Nat → List Int → Option (List (Nat × SnakeGame))
  | _, _, [] => some []
  | g, k, t :: ts =>
    match gameLoop g t (rndss k) fuel with
    | .done g1 calls => (frames rndss fuel g1 (k + 1) ts).map (fun l => (calls, g1) :: l)
    | _ => none

/-- A run of `Math.random` on a grid of 20 tiles whose every sample is the
cell `(x, y)`: it returns `x / 20` and `y / 20` in turn. -/
def rndAt (x y : Int) : Nat → ℚ :=
  fun i => if i % 2 = 0 then (x : ℚ) / 20 else (y : ℚ) / 20

/-- The snake after `k` meals on the row `y = 10`, starting from `(10,10)` and
heading right. -/
def fedSnake : Nat → List Cell
  | 0 => [{ x := 10, y := 10 }]
  | k + 1 => { x := 10 + ((k + 1 : Nat) : Int), y := 10 } :: fedSnake k

/-- The running game on 20 tiles after `k` meals, each found in the cell just
ahead, with the next food just ahead again. -/
def fed (k : Nat) : SnakeGame :=
  { constructorFields 20 0 with
    gameRunning := true, dx := 1, dy := 0, score := 10 * (k : Int),
    speed := if 5 ≤ k then 140 else 150,
    snake := fedSnake k, previousSnake := if k = 0 then [] else fedSnake (k - 1),
    food := { x := 11 + (k : Int), y := 10 } }

/-- A running game on 20 tiles whose one-cell snake is at the right edge,
heading right; the food is at `(0,0)`. -/
def scenarioEdge : SnakeGame :=
  { constructorFields 20 0 with
    gameRunning := true, dx := 1, dy := 0,
    snake := [{ x := 19, y := 10 }], previousSnake := [{ x := 18, y := 10 }] }

/-- The state `scenarioEdge` after the tick that hits the wall. -/
def scenarioDead : SnakeGame :=
  { scenarioEdge with gameRunning := false, previousSnake := [{ x := 19, y := 10 }] }

/-- The state of `gameLoop` when it enters its `while` loop: `currentTime` is
recorded and the time since the last frame is added to the accumulator. -/
def frameStart (g : SnakeGame) (currentTime : Int) : SnakeGame :=
  { g with lastUpdateTime := currentTime,
           accumulator := g.accumulator + (currentTime - g.lastUpdateTime) }

/-- A running game heading up whose head is one step below the food. -/
def scenarioFoodUp : SnakeGame :=
  { constructorFields 20 0 with
    gameRunning := true, dx := 0, dy := -1, food := { x := 10, y := 9 } }

/-- A running game heading down whose snake of four cells is about to step
onto its own last segment. -/
def scenarioTailDown : SnakeGame :=
  { constructorFields 20 0 with
    gameRunning := true, dx := 0, dy := 1, score := 30,
    snake := [{ x := 5, y := 5 }, { x := 6, y := 5 }, { x := 6, y := 6 }, { x := 5, y := 6 }] }

/-! ## Properties -/

theorem occupied_iff (snake : List Cell) (c : Cell) : occupied snake c = true ↔ c ∈ snake := by
  unfold occupied
  simp only [List.any_eq_true, Bool.and_eq_true, beq_iff_eq]
  constructor
  · rintro ⟨s, hs, hx, hy⟩
    have : s = c := by cases s; cases c; simp_all
    exact this ▸ hs
  · intro h
    exact ⟨c, h, rfl, rfl⟩

theorem occupied_eq_false_iff (snake : List Cell) (c : Cell) :
    occupied snake c = false ↔ c ∉ snake := by
  rw [← occupied_iff, Bool.not_eq_true]

theorem wallCollision_eq_false_iff (g : SnakeGame) (head : Cell) :
    wallCollision g head = false ↔ inGrid g.tileCount head := by
  unfold wallCollision inGrid
  simp only [Bool.or_eq_false_iff, decide_eq_false_iff_not, not_lt, ge_iff_le, not_le]
  tauto

theorem foodCollision_iff (g : SnakeGame) (head : Cell) :
    foodCollision g head = true ↔ head = g.food := by
  unfold foodCollision
  simp only [Bool.and_eq_true, beq_iff_eq]
  constructor
  · rintro ⟨hx, hy⟩
    cases head; cases hf : g.food; simp_all
  · intro h
    subst h
    exact ⟨rfl, rfl⟩

theorem update_isSome_of_ne_nil (g : SnakeGame) (rnd : Nat → ℚ) (h : g.snake ≠ []) :
    (update g rnd).isSome = true := by
  obtain ⟨s0, rest, hs⟩ := List.exists_cons_of_ne_nil h
  unfold update candidateHead
  simp only [hs]
  split_ifs <;> simp

theorem gameOver_fields (g : SnakeGame) :
    (gameOver g).gameRunning = false ∧ (gameOver g).gamePaused = false ∧
    (gameOver g).snake = g.snake ∧ (gameOver g).score = g.score ∧
    (gameOver g).food = g.food ∧ (gameOver g).speed = g.speed ∧
    (gameOver g).tileCount = g.tileCount ∧ (gameOver g).dx = g.dx ∧
    (gameOver g).dy = g.dy := by
  unfold gameOver
  dsimp only
  split_ifs <;> simp

theorem candidateHead_eq_some (g : SnakeGame) (head : Cell)
    (h : candidateHead g = some head) :
    ∃ s0 rest, g.snake = s0 :: rest ∧ head = { x := s0.x + g.dx, y := s0.y + g.dy } := by
  unfold candidateHead at h
  cases hs : g.snake with
  | nil => simp [hs] at h
  | cons s0 rest =>
    simp only [hs, Option.some.injEq] at h
    exact ⟨s0, rest, rfl, h.symm⟩

theorem update_of_idle (g : SnakeGame) (rnd : Nat → ℚ)
    (h : g.gameRunning = false ∨ g.gamePaused = true) : update g rnd = some g := by
  unfold update
  rw [if_pos]
  rcases h with h | h <;> simp [h]

theorem update_of_wall (g : SnakeGame) (rnd : Nat → ℚ) (head : Cell)
    (hrun : g.gameRunning = true) (hpause : g.gamePaused = false)
    (hhead : candidateHead g = some head) (hw : wallCollision g head = true) :
    update g rnd = some (gameOver { g with previousSnake := g.snake }) := by
  have hh : candidateHead { g with previousSnake := g.snake } = some head := hhead
  have hw1 : wallCollision { g with previousSnake := g.snake } head = true := hw
  unfold update
  rw [if_neg (by simp [hrun, hpause])]
  simp only [hh, hw1, if_true]

theorem update_of_self (g : SnakeGame) (rnd : Nat → ℚ) (head : Cell)
    (hrun : g.gameRunning = true) (hpause : g.gamePaused = false)
    (hhead : candidateHead g = some head) (hw : wallCollision g head = false)
    (hs : selfCollision g head = true) :
    update g rnd = some (gameOver { g with previousSnake := g.snake }) := by
  have hh : candidateHead { g with previousSnake := g.snake } = some head := hhead
  have hw1 : wallCollision { g with previousSnake := g.snake } head = false := hw
  have hs1 : selfCollision { g with previousSnake := g.snake } head = true := hs
  unfold update
  rw [if_neg (by simp [hrun, hpause])]
  simp only [hh, hw1, hs1, Bool.false_eq_true, if_false, if_true]

theorem update_of_move (g : SnakeGame) (rnd : Nat → ℚ) (head : Cell)
    (hrun : g.gameRunning = true) (hpause : g.gamePaused = false)
    (hhead : candidateHead g = some head) (hw : wallCollision g head = false)
    (hs : selfCollision g head = false) (hf : foodCollision g head = false) :
    update g rnd = some
      { g with previousSnake := g.snake, snake := (head :: g.snake).dropLast,
               interpolationFactor := 0 } := by
  have hh : candidateHead { g with previousSnake := g.snake } = some head := hhead
  have hw1 : wallCollision { g with previousSnake := g.snake } head = false := hw
  have hs1 : selfCollision { g with previousSnake := g.snake } head = false := hs
  have hf1 : foodCollision { g with previousSnake := g.snake, snake := head :: g.snake } head
      = false := hf
  unfold update
  rw [if_neg (by simp [hrun, hpause])]
  simp only [hh, hw1, hs1, hf1, Bool.false_eq_true, if_false]

theorem update_of_food (g : SnakeGame) (rnd : Nat → ℚ) (head : Cell)
    (hrun : g.gameRunning = true) (hpause : g.gamePaused = false)
    (hhead : candidateHead g = some head) (hw : wallCollision g head = false)
    (hs : selfCollision g head = false) (hf : foodCollision g head = true) :
    update g rnd = some
      { g with previousSnake := g.snake, snake := head :: g.snake, score := g.score + 10,
               food := generateFood
                 { g with previousSnake := g.snake, snake := head :: g.snake,
                          score := g.score + 10 } rnd,
               speed := if (g.score + 10).tmod 50 = 0 ∧ g.speed > 50
                 then g.speed - 10 else g.speed,
               interpolationFactor := 0 } := by
  have hh : candidateHead { g with previousSnake := g.snake } = some head := hhead
  have hw1 : wallCollision { g with previousSnake := g.snake } head = false := hw
  have hs1 : selfCollision { g with previousSnake := g.snake } head = false := hs
  have hf1 : foodCollision { g with previousSnake := g.snake, snake := head :: g.snake } head
      = true := hf
  unfold update
  rw [if_neg (by simp [hrun, hpause])]
  simp only [hh, hw1, hs1, hf1, Bool.false_eq_true, if_false, if_true]
  split_ifs <;> rfl

theorem candidateHead_of_cons (g : SnakeGame) (s0 : Cell) (rest : List Cell)
    (h : g.snake = s0 :: rest) :
    candidateHead g = some { x := s0.x + g.dx, y := s0.y + g.dy } := by
  simp [candidateHead, h]

/-- C1. In a running, unpaused game with head `s0`, when the candidate head
`(s0.x + dx, s0.y + dy)` lies in the grid, is on no snake segment and is not
the food cell, `update` returns with the snake equal to that cell followed by
the old snake without its last segment, the same length, and score, food and
speed unchanged. -/
theorem update_empty_move (g : SnakeGame) (rnd : Nat → ℚ) (s0 : Cell) (rest : List Cell)
    (hrun : g.gameRunning = true) (hpause : g.gamePaused = false)
    (hsnake : g.snake = s0 :: rest)
    (hgrid : 0 ≤ s0.x + g.dx ∧ s0.x + g.dx < g.tileCount ∧
      0 ≤ s0.y + g.dy ∧ s0.y + g.dy < g.tileCount)
    (hself : ({ x := s0.x + g.dx, y := s0.y + g.dy } : Cell) ∉ g.snake)
    (hfood : ({ x := s0.x + g.dx, y := s0.y + g.dy } : Cell) ≠ g.food) :
    ∃ g1, update g rnd = some g1 ∧
      g1.snake = { x := s0.x + g.dx, y := s0.y + g.dy } :: (s0 :: rest).dropLast ∧
      g1.snake.length = g.snake.length ∧
      g1.score = g.score ∧ g1.food = g.food ∧ g1.speed = g.speed := by
  have hhead := candidateHead_of_cons g s0 rest hsnake
  have hw : wallCollision g { x := s0.x + g.dx, y := s0.y + g.dy } = false :=
    (wallCollision_eq_false_iff _ _).2 hgrid
  have hs : selfCollision g { x := s0.x + g.dx, y := s0.y + g.dy } = false :=
    (occupied_eq_false_iff _ _).2 hself
  have hf : foodCollision g { x := s0.x + g.dx, y := s0.y + g.dy } = false := by
    rw [← Bool.not_eq_true, foodCollision_iff]
    exact hfood
  refine ⟨_, update_of_move g rnd _ hrun hpause hhead hw hs hf, ?_⟩
  simp [hsnake, List.dropLast]

/-- The first scenario: snake `[(10,10)]` heading right on 20 tiles, food
elsewhere, gives snake `[(11,10)]` and score 0; heading down it gives
`[(10,11)]`. -/
theorem update_empty_move_witness :
    (∃ g1, update scenarioRight (fun _ => 0) = some g1 ∧
      g1.snake = [{ x := 11, y := 10 }] ∧ g1.score = 0) ∧
    (∃ g1, update scenarioDown (fun _ => 0) = some g1 ∧
      g1.snake = [{ x := 10, y := 11 }] ∧ g1.score = 0) := by
  obtain ⟨g1, h, hs, _, hsc, _⟩ :=
    update_empty_move scenarioRight (fun _ => 0) { x := 10, y := 10 } []
      (by decide) (by decide) (by decide) (by decide) (by decide) (by decide)
  obtain ⟨g2, h2, hs2, _, hsc2, _⟩ :=
    update_empty_move scenarioDown (fun _ => 0) { x := 10, y := 10 } []
      (by decide) (by decide) (by decide) (by decide) (by decide) (by decide)
  exact ⟨⟨g1, h, hs.trans (by decide), hsc.trans (by decide)⟩,
    ⟨g2, h2, hs2.trans (by decide), hsc2.trans (by decide)⟩⟩

/-- C2. In a running, unpaused game with head `s0`, when the candidate head
`(s0.x + dx, s0.y + dy)` lies in the grid, is on no snake segment and is the
food cell, `update` returns with the snake equal to that cell followed by the
whole old snake (one longer), the score raised by 10, and the speed lowered by
10 exactly when the new score is a multiple of 50 and the old speed is above
50. -/
theorem update_food_move (g : SnakeGame) (rnd : Nat → ℚ) (s0 : Cell) (rest : List Cell)
    (hrun : g.gameRunning = true) (hpause : g.gamePaused = false)
    (hsnake : g.snake = s0 :: rest)
    (hgrid : 0 ≤ s0.x + g.dx ∧ s0.x + g.dx < g.tileCount ∧
      0 ≤ s0.y + g.dy ∧ s0.y + g.dy < g.tileCount)
    (hself : ({ x := s0.x + g.dx, y := s0.y + g.dy } : Cell) ∉ g.snake)
    (hfood : ({ x := s0.x + g.dx, y := s0.y + g.dy } : Cell) = g.food) :
    ∃ g1, update g rnd = some g1 ∧
      g1.snake = { x := s0.x + g.dx, y := s0.y + g.dy } :: s0 :: rest ∧
      g1.snake.length = g.snake.length + 1 ∧
      g1.score = g.score + 10 ∧
      g1.speed = if 50 ∣ g1.score ∧ g.speed > 50 then g.speed - 10 else g.speed := by
  have hhead := candidateHead_of_cons g s0 rest hsnake
  have hw : wallCollision g { x := s0.x + g.dx, y := s0.y + g.dy } = false :=
    (wallCollision_eq_false_iff _ _).2 hgrid
  have hs : selfCollision g { x := s0.x + g.dx, y := s0.y + g.dy } = false :=
    (occupied_eq_false_iff _ _).2 hself
  have hf : foodCollision g { x := s0.x + g.dx, y := s0.y + g.dy } = true :=
    (foodCollision_iff g _).2 hfood
  refine ⟨_, update_of_food g rnd _ hrun hpause hhead hw hs hf, ?_, rfl, rfl, ?_⟩
  · show _ :: g.snake = _
    rw [hsnake]
  · simp only [Int.dvd_iff_tmod_eq_zero]

/-- A food tick heading right that brings the score from 40 to 50 at speed
150: the snake grows to two cells and the speed drops to 140. A food tick
heading up from score 0: the snake grows to `[(10,9),(10,10)]`, the score is 10
and the speed stays 150. -/
theorem update_food_move_witness :
    (∃ g1, update scenarioFood (fun _ => 0) = some g1 ∧
      g1.snake = [{ x := 11, y := 10 }, { x := 10, y := 10 }] ∧
      g1.score = 50 ∧ g1.speed = 140) ∧
    (∃ g1, update scenarioFoodUp (fun _ => 0) = some g1 ∧
      g1.snake = [{ x := 10, y := 9 }, { x := 10, y := 10 }] ∧
      g1.score = 10 ∧ g1.speed = 150) := by
  obtain ⟨g1, h, hs, _, hsc, hsp⟩ :=
    update_food_move scenarioFood (fun _ => 0) { x := 10, y := 10 } []
      (by decide) (by decide) (by decide) (by decide) (by decide) (by decide)
  obtain ⟨g2, h2, hs2, _, hsc2, hsp2⟩ :=
    update_food_move scenarioFoodUp (fun _ => 0) { x := 10, y := 10 } []
      (by decide) (by decide) (by decide) (by decide) (by decide) (by decide)
  refine ⟨⟨g1, h, hs.trans (by decide), hsc.trans (by decide), ?_⟩,
    ⟨g2, h2, hs2.trans (by decide), hsc2.trans (by decide), ?_⟩⟩
  · rw [hsp, hsc]
    decide
  · rw [hsp2, hsc2]
    decide

/-- C4. In a running, unpaused game with head `s0`, when the candidate head
`(s0.x + dx, s0.y + dy)` lies in the grid and equals a segment of the snake as
it is before the move, the last segment included, `update` ends the game:
`gameRunning` becomes false and snake, score, food and speed are unchanged. -/
theorem update_self_collision (g : SnakeGame) (rnd : Nat → ℚ) (s0 : Cell) (rest : List Cell)
    (hrun : g.gameRunning = true) (hpause : g.gamePaused = false)
    (hsnake : g.snake = s0 :: rest)
    (hgrid : 0 ≤ s0.x + g.dx ∧ s0.x + g.dx < g.tileCount ∧
      0 ≤ s0.y + g.dy ∧ s0.y + g.dy < g.tileCount)
    (hself : ({ x := s0.x + g.dx, y := s0.y + g.dy } : Cell) ∈ g.snake) :
    ∃ g1, update g rnd = some g1 ∧ g1.gameRunning = false ∧
      g1.snake = g.snake ∧ g1.score = g.score ∧ g1.food = g.food ∧ g1.speed = g.speed := by
  have hhead := candidateHead_of_cons g s0 rest hsnake
  have hw : wallCollision g { x := s0.x + g.dx, y := s0.y + g.dy } = false :=
    (wallCollision_eq_false_iff _ _).2 hgrid
  have hs : selfCollision g { x := s0.x + g.dx, y := s0.y + g.dy } = true :=
    (occupied_iff _ _).2 hself
  obtain ⟨h1, -, h3, h4, h5, h6, -⟩ := gameOver_fields { g with previousSnake := g.snake }
  exact ⟨_, update_of_self g rnd _ hrun hpause hhead hw hs, h1, h3, h4, h5, h6⟩

/-- A snake of four cells stepping onto the cell of its own last segment dies,
although an ordinary move would have vacated that cell on this tick: heading
right onto `(6,5)`, and heading down onto `(5,6)`. -/
theorem update_self_collision_witness :
    (scenarioTail.snake.getLast? = some { x := 6, y := 5 } ∧
      ∃ g1, update scenarioTail (fun _ => 0) = some g1 ∧ g1.gameRunning = false ∧
        g1.snake = scenarioTail.snake ∧ g1.score = 30) ∧
    (scenarioTailDown.snake.getLast? = some { x := 5, y := 6 } ∧
      ∃ g1, update scenarioTailDown (fun _ => 0) = some g1 ∧ g1.gameRunning = false ∧
        g1.snake = scenarioTailDown.snake ∧ g1.score = 30) := by
  obtain ⟨g1, h, hr, hs, hsc, _⟩ :=
    update_self_collision scenarioTail (fun _ => 0) { x := 5, y := 5 }
      [{ x := 5, y := 6 }, { x := 6, y := 6 }, { x := 6, y := 5 }]
      (by decide) (by decide) (by decide) (by decide) (by decide)
  obtain ⟨g2, h2, hr2, hs2, hsc2, _⟩ :=
    update_self_collision scenarioTailDown (fun _ => 0) { x := 5, y := 5 }
      [{ x := 6, y := 5 }, { x := 6, y := 6 }, { x := 5, y := 6 }]
      (by decide) (by decide) (by decide) (by decide) (by decide)
  exact ⟨⟨by decide, g1, h, hr, hs, hsc⟩, ⟨by decide, g2, h2, hr2, hs2, hsc2⟩⟩

/-- C5, as the code has it. With snake `[(1,10),(0,10)]` (head first) heading
left on a grid of more than 10 tiles, the candidate head is `(0,10)`: it passes
the wall test, fails the self test (it is the second segment), and `update`
ends the game. -/
theorem update_left_into_neck (g : SnakeGame) (rnd : Nat → ℚ)
    (hrun : g.gameRunning = true) (hpause : g.gamePaused = false)
    (hsnake : g.snake = [{ x := 1, y := 10 }, { x := 0, y := 10 }])
    (hdx : g.dx = -1) (hdy : g.dy = 0) (htile : 10 < g.tileCount) :
    candidateHead g = some { x := 0, y := 10 } ∧
      wallCollision g { x := 0, y := 10 } = false ∧
      selfCollision g { x := 0, y := 10 } = true ∧
      ∃ g1, update g rnd = some g1 ∧ g1.gameRunning = false := by
  have hh : candidateHead g = some { x := 0, y := 10 } := by
    simp [candidateHead, hsnake, hdx, hdy]
  have hw : wallCollision g { x := 0, y := 10 } = false := by
    rw [wallCollision_eq_false_iff]
    unfold inGrid
    simp only
    omega
  have hs : selfCollision g { x := 0, y := 10 } = true := by
    unfold selfCollision
    rw [occupied_iff, hsnake]
    simp
  exact ⟨hh, hw, hs, _, update_of_self g rnd _ hrun hpause hh hw hs,
    (gameOver_fields _).1⟩

/-- The second scenario on 20 tiles: the game ends on the self test. -/
theorem update_left_into_neck_witness :
    candidateHead scenarioLeft = some { x := 0, y := 10 } ∧
      wallCollision scenarioLeft { x := 0, y := 10 } = false ∧
      selfCollision scenarioLeft { x := 0, y := 10 } = true ∧
      ∃ g1, update scenarioLeft (fun _ => 0) = some g1 ∧ g1.gameRunning = false :=
  update_left_into_neck scenarioLeft (fun _ => 0) (by decide) (by decide) (by decide)
    (by decide) (by decide) (by decide)

/-- In the second scenario the candidate head is `(0,10)`, not `(-1,10)`; it
passes the wall test and fails the self test, so the tick does not end on the
wall. -/
theorem scenarioLeft_not_wall :
    candidateHead scenarioLeft ≠ some { x := -1, y := 10 } ∧
      candidateHead scenarioLeft = some { x := 0, y := 10 } ∧
      wallCollision scenarioLeft { x := 0, y := 10 } = false ∧
      selfCollision scenarioLeft { x := 0, y := 10 } = true := by
  decide

theorem generateFoodLoop_again (g : SnakeGame) (rnd : Nat → ℚ) (attempts : Nat)
    (hocc : occupied g.snake (sampleCell g.tileCount rnd attempts) = true)
    (hlt : attempts + 1 < maxAttempts) :
    generateFoodLoop g rnd attempts = generateFoodLoop g rnd (attempts + 1) := by
  conv_lhs => unfold generateFoodLoop
  simp [hocc, hlt]

theorem generateFoodLoop_exit (g : SnakeGame) (rnd : Nat → ℚ) (attempts : Nat)
    (h : occupied g.snake (sampleCell g.tileCount rnd attempts) = false ∨
      maxAttempts ≤ attempts + 1) :
    generateFoodLoop g rnd attempts = (sampleCell g.tileCount rnd attempts, attempts + 1) := by
  conv_lhs => unfold generateFoodLoop
  rcases h with h | h
  · simp [h]
  · simp [Nat.not_lt.2 h]

/-- What the loop of `generateFood` computes: it stops at the first pass whose
sample is free or which is the 100th, and returns that pass's sample. -/
theorem generateFoodLoop_spec (g : SnakeGame) (rnd : Nat → ℚ) (attempts : Nat) :
    attempts < (generateFoodLoop g rnd attempts).2 ∧
    (generateFoodLoop g rnd attempts).1 =
      sampleCell g.tileCount rnd ((generateFoodLoop g rnd attempts).2 - 1) ∧
    (∀ k, attempts ≤ k → k + 1 < (generateFoodLoop g rnd attempts).2 →
      occupied g.snake (sampleCell g.tileCount rnd k) = true) ∧
    ((generateFoodLoop g rnd attempts).2 < maxAttempts →
      occupied g.snake (generateFoodLoop g rnd attempts).1 = false) ∧
    (attempts < maxAttempts → (generateFoodLoop g rnd attempts).2 ≤ maxAttempts) := by
  induction attempts using generateFoodLoop.induct g rnd with
  | case1 x newFood hcond ih =>
    simp only [Bool.and_eq_true, decide_eq_true_eq] at hcond
    rw [generateFoodLoop_again g rnd x hcond.1 hcond.2]
    obtain ⟨h1, h2, h3, h4, h5⟩ := ih
    refine ⟨by omega, h2, ?_, h4, fun _ => h5 hcond.2⟩
    intro k hk hk2
    rcases Nat.eq_or_lt_of_le hk with rfl | hlt
    · exact hcond.1
    · exact h3 k hlt hk2
  | case2 x newFood hcond =>
    simp only [Bool.and_eq_true, decide_eq_true_eq, not_and, not_lt] at hcond
    have hex : occupied g.snake (sampleCell g.tileCount rnd x) = false ∨
        maxAttempts ≤ x + 1 := by
      cases hocc : occupied g.snake (sampleCell g.tileCount rnd x) with
      | false => exact Or.inl rfl
      | true => exact Or.inr (hcond hocc)
    rw [generateFoodLoop_exit g rnd x hex]
    refine ⟨by simp, by simp, ?_, ?_, ?_⟩
    · intro k hk hk2
      simp only at hk2
      omega
    · intro hlt
      simp only at hlt
      rcases hex with h | h
      · exact h
      · omega
    · intro hlt
      simp only
      omega

/-- When every pass from `attempts` up to the 99th samples an occupied cell,
the loop ends after the 100th pass with `attempts = 100`, whatever the 100th
sample is. -/
theorem generateFoodLoop_exhaust (g : SnakeGame) (rnd : Nat → ℚ) (n attempts : Nat)
    (hn : attempts + n = 99)
    (hocc : ∀ k, attempts ≤ k → k < 99 →
      occupied g.snake (sampleCell g.tileCount rnd k) = true) :
    generateFoodLoop g rnd attempts = (sampleCell g.tileCount rnd 99, 100) := by
  induction n generalizing attempts with
  | zero =>
    have h99 : attempts = 99 := by omega
    subst h99
    exact generateFoodLoop_exit g rnd 99 (Or.inr (by decide))
  | succ n ih =>
    rw [generateFoodLoop_again g rnd attempts (hocc attempts (le_refl _) (by omega))
      (by unfold maxAttempts; omega)]
    exact ih (attempts + 1) (by omega) (fun k hk hk2 => hocc k (by omega) hk2)

theorem sampleCell_inGrid (tileCount : Int) (rnd : Nat → ℚ) (k : Nat)
    (ht : 0 < tileCount) (hr : ∀ i, 0 ≤ rnd i ∧ rnd i < 1) :
    inGrid tileCount (sampleCell tileCount rnd k) := by
  have htq : (0 : ℚ) < (tileCount : ℚ) := by exact_mod_cast ht
  have key : ∀ r : ℚ, 0 ≤ r → r < 1 →
      0 ≤ Int.floor (r * (tileCount : ℚ)) ∧ Int.floor (r * (tileCount : ℚ)) < tileCount := by
    intro r h0 h1
    constructor
    · exact Int.floor_nonneg.2 (mul_nonneg h0 htq.le)
    · rw [Int.floor_lt]
      calc r * (tileCount : ℚ) < 1 * (tileCount : ℚ) := mul_lt_mul_of_pos_right h1 htq
        _ = (tileCount : ℚ) := one_mul _
  unfold inGrid sampleCell
  exact ⟨(key _ (hr _).1 (hr _).2).1, (key _ (hr _).1 (hr _).2).2,
    (key _ (hr _).1 (hr _).2).1, (key _ (hr _).1 (hr _).2).2⟩

/-- C6. With `Math.random` any stream of values in `[0,1)` and a grid of at
least one tile: when `generateFood` ends its loop after fewer than 100
attempts (no fallback), the cell it returns lies in the grid and is on no
snake segment; so after a food tick of `update` the new food is not on the
snake, new head included, unless the fallback was taken. -/
theorem generateFood_avoids_snake (g : SnakeGame) (rnd : Nat → ℚ)
    (htile : 0 < g.tileCount) (hrnd : ∀ i, 0 ≤ rnd i ∧ rnd i < 1)
    (hfb : (generateFoodLoop g rnd 0).2 < maxAttempts) :
    (inGrid g.tileCount (generateFood g rnd) ∧ generateFood g rnd ∉ g.snake) ∧
    ∀ (g0 : SnakeGame) (s0 : Cell) (rest : List Cell),
      g0.gameRunning = true → g0.gamePaused = false → g0.snake = s0 :: rest →
      inGrid g0.tileCount { x := s0.x + g0.dx, y := s0.y + g0.dy } →
      ({ x := s0.x + g0.dx, y := s0.y + g0.dy } : Cell) ∉ g0.snake →
      ({ x := s0.x + g0.dx, y := s0.y + g0.dy } : Cell) = g0.food →
      g = grown g0 { x := s0.x + g0.dx, y := s0.y + g0.dy } →
      ∃ g1, update g0 rnd = some g1 ∧
        g1.snake = { x := s0.x + g0.dx, y := s0.y + g0.dy } :: s0 :: rest ∧
        g1.food = generateFood g rnd ∧ g1.food ∉ g1.snake := by
  obtain ⟨-, h2, -, h4, -⟩ := generateFoodLoop_spec g rnd 0
  have hfood : generateFood g rnd = (generateFoodLoop g rnd 0).1 := by
    unfold generateFood
    simp only [ge_iff_le]
    rw [if_neg (Nat.not_le.2 hfb)]
  have hnot : generateFood g rnd ∉ g.snake := by
    rw [hfood, ← occupied_eq_false_iff]
    exact h4 hfb
  refine ⟨⟨?_, hnot⟩, ?_⟩
  · rw [hfood, h2]
    exact sampleCell_inGrid g.tileCount rnd _ htile hrnd
  · intro g0 s0 rest hrun hpause hsnake hgrid hself hf hg
    have hhead := candidateHead_of_cons g0 s0 rest hsnake
    have hw : wallCollision g0 { x := s0.x + g0.dx, y := s0.y + g0.dy } = false :=
      (wallCollision_eq_false_iff _ _).2 hgrid
    have hs : selfCollision g0 { x := s0.x + g0.dx, y := s0.y + g0.dy } = false :=
      (occupied_eq_false_iff _ _).2 hself
    have hfc : foodCollision g0 { x := s0.x + g0.dx, y := s0.y + g0.dy } = true :=
      (foodCollision_iff g0 _).2 hf
    subst hg
    refine ⟨_, update_of_food g0 rnd _ hrun hpause hhead hw hs hfc, ?_, rfl, hnot⟩
    show _ :: g0.snake = _
    rw [hsnake]

/-- A food tick from score 40 with `Math.random` returning 0: the first sample
`(0,0)` is free, it becomes the food, and it is not on the grown snake. -/
theorem generateFood_avoids_snake_witness :
    (inGrid 20 (generateFood (grown scenarioFood { x := 11, y := 10 }) (fun _ => 0)) ∧
      generateFood (grown scenarioFood { x := 11, y := 10 }) (fun _ => 0) ∉
        [({ x := 11, y := 10 } : Cell), { x := 10, y := 10 }]) ∧
    ∃ g1, update scenarioFood (fun _ => 0) = some g1 ∧
      g1.snake = [{ x := 11, y := 10 }, { x := 10, y := 10 }] ∧
      g1.food ∉ g1.snake := by
  have hfree : occupied (grown scenarioFood { x := 11, y := 10 }).snake
      (sampleCell (grown scenarioFood { x := 11, y := 10 }).tileCount (fun _ => 0) 0) = false := by
    simp [sampleCell, occupied, grown, scenarioFood, constructorFields]
  have hloop := generateFoodLoop_exit (grown scenarioFood { x := 11, y := 10 }) (fun _ => 0) 0
    (Or.inl hfree)
  obtain ⟨h1, h2⟩ :=
    generateFood_avoids_snake (grown scenarioFood { x := 11, y := 10 }) (fun _ => 0)
      (by decide) (fun _ => ⟨le_refl _, zero_lt_one⟩) (by rw [hloop]; decide)
  obtain ⟨g1, hu, hs, -, hn⟩ := h2 scenarioFood { x := 10, y := 10 } []
    (by decide) (by decide) (by decide) (by decide) (by decide) (by decide) rfl
  exact ⟨h1, g1, hu, hs.trans (by decide), hn⟩

/-- C7, the failing input. With snake `[(0,0)]` on 20 tiles and `Math.random`
returning 0 for 198 calls and then 1/2, the first 99 samples are the occupied
cell `(0,0)` and the 100th sample `(10,10)` is free, yet `generateFood` returns
the fallback cell `(1,1)`. -/
theorem generateFood_discards_last_sample :
    (∀ k, k < 99 → sampleCell 20 rndLate k ∈ scenarioCorner.snake) ∧
    sampleCell 20 rndLate 99 = { x := 10, y := 10 } ∧
    sampleCell 20 rndLate 99 ∉ scenarioCorner.snake ∧
    (generateFoodLoop scenarioCorner rndLate 0).2 = 100 ∧
    generateFood scenarioCorner rndLate = { x := 1, y := 1 } := by
  have hsample : ∀ k, k < 99 → sampleCell 20 rndLate k = { x := 0, y := 0 } := by
    intro k hk
    have h1 : 2 * k < 198 := by omega
    have h2 : 2 * k + 1 < 198 := by omega
    simp [sampleCell, rndLate, h1, h2]
  have hlast : sampleCell 20 rndLate 99 = { x := 10, y := 10 } := by
    simp only [sampleCell, rndLate]
    norm_num
  have hloop : generateFoodLoop scenarioCorner rndLate 0 = (sampleCell 20 rndLate 99, 100) := by
    refine generateFoodLoop_exhaust scenarioCorner rndLate 99 0 rfl ?_
    intro k _ hk
    show occupied scenarioCorner.snake (sampleCell 20 rndLate k) = true
    rw [hsample k hk]
    decide
  refine ⟨?_, hlast, ?_, ?_, ?_⟩
  · intro k hk
    rw [hsample k hk]
    decide
  · rw [hlast]
    decide
  · rw [hloop]
  · unfold generateFood
    simp only [hloop]
    decide

theorem update_preserves_snakeOk (tileCount : Int) (g g1 : SnakeGame) (rnd : Nat → ℚ)
    (hok : SnakeOk tileCount g) (hu : update g rnd = some g1) : SnakeOk tileCount g1 := by
  obtain ⟨ht, hne, hnd, hin⟩ := hok
  by_cases hidle : g.gameRunning = false ∨ g.gamePaused = true
  · rw [update_of_idle g rnd hidle, Option.some.injEq] at hu
    subst hu
    exact ⟨ht, hne, hnd, hin⟩
  · have hrun : g.gameRunning = true := by
      cases h : g.gameRunning with
      | true => rfl
      | false => exact absurd (Or.inl h) hidle
    have hpause : g.gamePaused = false := by
      cases h : g.gamePaused with
      | false => rfl
      | true => exact absurd (Or.inr h) hidle
    obtain ⟨s0, rest, hs⟩ := List.exists_cons_of_ne_nil hne
    have hhead : candidateHead g = some { x := s0.x + g.dx, y := s0.y + g.dy } := by
      simp [candidateHead, hs]
    generalize ({ x := s0.x + g.dx, y := s0.y + g.dy } : Cell) = head at hhead
    have hover : SnakeOk tileCount (gameOver { g with previousSnake := g.snake }) := by
      obtain ⟨-, -, h3, -, -, -, h7, -⟩ := gameOver_fields { g with previousSnake := g.snake }
      unfold SnakeOk
      rw [h3, h7]
      exact ⟨ht, hne, hnd, hin⟩
    cases hw : wallCollision g head with
    | true =>
      rw [update_of_wall g rnd head hrun hpause hhead hw, Option.some.injEq] at hu
      exact hu ▸ hover
    | false =>
      have hgrid : inGrid tileCount head := ht ▸ (wallCollision_eq_false_iff g head).1 hw
      cases hsc : selfCollision g head with
      | true =>
        rw [update_of_self g rnd head hrun hpause hhead hw hsc, Option.some.injEq] at hu
        exact hu ▸ hover
      | false =>
        have hnotin : head ∉ g.snake := (occupied_eq_false_iff _ _).1 hsc
        have hnd2 : (head :: g.snake).Nodup := List.nodup_cons.2 ⟨hnotin, hnd⟩
        have hin2 : ∀ c ∈ head :: g.snake, inGrid tileCount c := by
          intro c hc
          rcases List.mem_cons.1 hc with rfl | hc
          · exact hgrid
          · exact hin c hc
        cases hf : foodCollision g head with
        | true =>
          rw [update_of_food g rnd head hrun hpause hhead hw hsc hf, Option.some.injEq] at hu
          subst hu
          exact ⟨ht, List.cons_ne_nil _ _, hnd2, hin2⟩
        | false =>
          rw [update_of_move g rnd head hrun hpause hhead hw hsc hf, Option.some.injEq] at hu
          subst hu
          refine ⟨ht, ?_, hnd2.sublist (List.dropLast_sublist _), ?_⟩
          · show (head :: g.snake).dropLast ≠ []
            rw [List.dropLast_cons_of_ne_nil hne]
            exact List.cons_ne_nil _ _
          · intro c hc
            exact hin2 c (List.dropLast_subset _ hc)

theorem handleKeyPress_snake (g : SnakeGame) (key : String) :
    (handleKeyPress g key).snake = g.snake ∧ (handleKeyPress g key).tileCount = g.tileCount := by
  unfold handleKeyPress togglePause
  split_ifs <;> exact ⟨rfl, rfl⟩

theorem touchEnd_snake (g : SnakeGame) (sx sy ex ey : Int) :
    (touchEnd g sx sy ex ey).snake = g.snake ∧
      (touchEnd g sx sy ex ey).tileCount = g.tileCount := by
  unfold touchEnd
  dsimp only
  split_ifs <;> exact ⟨rfl, rfl⟩

theorem snakeOk_of_snake_eq (tileCount : Int) (g g1 : SnakeGame)
    (h : g1.snake = g.snake ∧ g1.tileCount = g.tileCount) (hok : SnakeOk tileCount g) :
    SnakeOk tileCount g1 := by
  unfold SnakeOk at *
  rw [h.1, h.2]
  exact hok

theorem snakeOk_start (tileCount : Int) (g : SnakeGame) (htile : 10 < tileCount)
    (ht : g.tileCount = tileCount) (hs : g.snake = [{ x := 10, y := 10 }]) :
    SnakeOk tileCount g := by
  refine ⟨ht, by simp [hs], by simp [hs], ?_⟩
  intro c hc
  rw [hs, List.mem_singleton] at hc
  subst hc
  unfold inGrid
  simp only
  omega

theorem reachable_snakeOk (tileCount : Int) (g : SnakeGame) (htile : 10 < tileCount)
    (h : Reachable tileCount g) : SnakeOk tileCount g := by
  induction h with
  | init highScore rnd => exact snakeOk_start tileCount _ htile rfl rfl
  | step g g1 op _ hop ih =>
    cases op with
    | startGame =>
      simp only [Op.apply, Option.some.injEq] at hop
      subst hop
      refine snakeOk_of_snake_eq tileCount g _ ?_ ih
      unfold startGame
      split_ifs <;> exact ⟨rfl, rfl⟩
    | togglePause =>
      simp only [Op.apply, Option.some.injEq] at hop
      subst hop
      refine snakeOk_of_snake_eq tileCount g _ ?_ ih
      unfold togglePause
      split_ifs <;> exact ⟨rfl, rfl⟩
    | restartGame rnd =>
      simp only [Op.apply, Option.some.injEq] at hop
      subst hop
      exact snakeOk_start tileCount _ htile ih.1 rfl
    | key k =>
      simp only [Op.apply, Option.some.injEq] at hop
      subst hop
      exact snakeOk_of_snake_eq tileCount g _ (handleKeyPress_snake g k) ih
    | touch sx sy ex ey =>
      simp only [Op.apply, Option.some.injEq] at hop
      subst hop
      exact snakeOk_of_snake_eq tileCount g _ (touchEnd_snake g sx sy ex ey) ih
    | update rnd =>
      exact update_preserves_snakeOk tileCount g g1 rnd ih hop

/-- C3. On a canvas of more than 10 tiles (so that the initial cell `(10,10)`
is in the grid), every state reachable from the constructor's state by
`startGame`, `togglePause`, direction keys and swipes, `update` and
`restartGame` has a snake of length at least 1, with no cell twice and every
cell within `0 ≤ x, y < tileCount`; and `update` returns from it. -/
theorem reachable_snake_invariant (tileCount : Int) (g : SnakeGame) (htile : 10 < tileCount)
    (h : Reachable tileCount g) :
    (1 ≤ g.snake.length ∧ g.snake.Nodup ∧
      ∀ c ∈ g.snake, 0 ≤ c.x ∧ c.x < g.tileCount ∧ 0 ≤ c.y ∧ c.y < g.tileCount) ∧
    ∀ rnd, (update g rnd).isSome = true := by
  obtain ⟨ht, hne, hnd, hin⟩ := reachable_snakeOk tileCount g htile h
  refine ⟨⟨?_, hnd, ?_⟩, fun rnd => update_isSome_of_ne_nil g rnd hne⟩
  · exact List.length_pos.2 hne
  · intro c hc
    rw [ht]
    exact hin c hc

/-- A game started from the constructor's state and ticked once: the snake
invariants hold in the state the tick yields. -/
theorem reachable_snake_invariant_witness :
    ∃ g2, update (startGame (new 20 0 (fun _ => 0))) (fun _ => 0) = some g2 ∧
      1 ≤ g2.snake.length ∧ g2.snake.Nodup ∧
      ∀ c ∈ g2.snake, 0 ≤ c.x ∧ c.x < g2.tileCount ∧ 0 ≤ c.y ∧ c.y < g2.tileCount := by
  obtain ⟨g2, h2⟩ := Option.isSome_iff_exists.1
    (update_isSome_of_ne_nil (startGame (new 20 0 (fun _ => 0))) (fun _ => 0) (by decide))
  exact ⟨g2, h2, (reachable_snake_invariant 20 g2 (by decide)
    (Reachable.step _ _ (Op.update (fun _ => 0))
      (Reachable.step _ _ Op.startGame (Reachable.init 0 (fun _ => 0)) rfl) h2)).1⟩

/-- C8. In every state, a direction request (a direction key or a swipe) whose
direction is the exact reverse `(-dx, -dy)` of the current direction leaves
`dx` and `dy` unchanged. -/
theorem reverse_request_ignored (g : SnakeGame) (op : Op) (d : Int × Int)
    (hdir : op.direction = some d) (hrev : d = (-g.dx, -g.dy)) :
    ∃ g1, op.apply g = some g1 ∧ g1.dx = g.dx ∧ g1.dy = g.dy := by
  subst hrev
  cases op with
  | startGame => simp [Op.direction] at hdir
  | togglePause => simp [Op.direction] at hdir
  | restartGame rnd => simp [Op.direction] at hdir
  | update rnd => simp [Op.direction] at hdir
  | key k =>
    refine ⟨handleKeyPress g k, rfl, ?_⟩
    simp only [Op.direction, keyDirection] at hdir
    unfold handleKeyPress
    split_ifs at hdir with h1 h2 h3 h4 <;>
      simp only [Option.some.injEq, Prod.mk.injEq] at hdir
    · have hy : g.dy = 1 := by omega
      simp [h1, hy]
    · have hy : g.dy = -1 := by omega
      simp [h1, h2, hy]
    · have hx : g.dx = 1 := by omega
      simp [h1, h2, h3, hx]
    · have hx : g.dx = -1 := by omega
      simp [h1, h2, h3, h4, hx]
  | touch sx sy ex ey =>
    refine ⟨touchEnd g sx sy ex ey, rfl, ?_⟩
    simp only [Op.direction, swipeDirection] at hdir
    unfold touchEnd
    dsimp only
    split_ifs at hdir with h1 h2 h3 h2 h3 <;>
      simp only [Option.some.injEq, Prod.mk.injEq] at hdir
    · have hx : g.dx = -1 := by omega
      have h3 : ¬ ex - sx < 0 := by omega
      rw [if_pos h1, if_neg (by simp [hx]), if_neg (by simp [h3])]
      exact ⟨rfl, rfl⟩
    · have hx : g.dx = 1 := by omega
      simp [h1, h2, h3, hx]
    · have hy : g.dy = -1 := by omega
      have h3 : ¬ ey - sy < 0 := by omega
      rw [if_neg h1, if_neg (by simp [hy]), if_neg (by simp [h3])]
      exact ⟨rfl, rfl⟩
    · have hy : g.dy = 1 := by omega
      simp [h1, h2, h3, hy]

/-- Heading down, the key `ArrowUp` and an upward swipe both ask for the
reverse direction and are ignored. -/
theorem reverse_request_ignored_witness :
    (∃ g1, (Op.key "ArrowUp").apply scenarioDown = some g1 ∧ g1.dx = 0 ∧ g1.dy = 1) ∧
    (∃ g1, (Op.touch 100 100 103 40).apply scenarioDown = some g1 ∧ g1.dx = 0 ∧ g1.dy = 1) :=
  ⟨reverse_request_ignored scenarioDown (Op.key "ArrowUp") (0, -1) (by decide) (by decide),
   reverse_request_ignored scenarioDown (Op.touch 100 100 103 40) (0, -1) (by decide)
     (by decide)⟩

/-- C9, the failing input. A snake `[(10,10),(9,10)]` heading right is ticked
once (the tick commits direction right and moves it to `[(11,10),(10,10)]`);
before the next tick the keys `ArrowUp` and `ArrowLeft` are pressed. Each is
accepted, the direction becomes left, the exact reverse of the committed one,
and the next tick steers the head onto the neck `(10,10)` and ends the game. -/
theorem double_turn_reverses :
    update scenarioNeck (fun _ => 0) = some scenarioTicked ∧
      scenarioTicked.gameRunning = true ∧ scenarioTicked.gamePaused = false ∧
      scenarioTicked.dx = 1 ∧ scenarioTicked.dy = 0 ∧
      scenarioTicked.snake = [{ x := 11, y := 10 }, { x := 10, y := 10 }] ∧
      (handleKeyPress scenarioTicked "ArrowUp").dx = 0 ∧
      (handleKeyPress scenarioTicked "ArrowUp").dy = -1 ∧
      handleKeyPress (handleKeyPress scenarioTicked "ArrowUp") "ArrowLeft" = scenarioTurned ∧
      scenarioTurned.dx = -1 ∧ scenarioTurned.dy = 0 ∧
      candidateHead scenarioTurned = some { x := 10, y := 10 } ∧
      (update scenarioTurned (fun _ => 0)).map (fun g => (g.gameRunning, g.snake)) =
        some (false, [{ x := 11, y := 10 }, { x := 10, y := 10 }]) := by
  decide

/-- C10, as the code has it. While `gameRunning` is false (the Idle and
GameOver states) every key leaves `dx` and `dy` unchanged. -/
theorem key_ignored_when_not_running (g : SnakeGame) (key : String)
    (hrun : g.gameRunning = false) :
    (handleKeyPress g key).dx = g.dx ∧ (handleKeyPress g key).dy = g.dy := by
  unfold handleKeyPress
  rw [if_pos (by simp [hrun])]
  exact ⟨rfl, rfl⟩

/-- In the constructor's state the key `ArrowUp` leaves the direction at
`(0,0)`. -/
theorem key_ignored_when_not_running_witness :
    (handleKeyPress (constructorFields 20 0) "ArrowUp").dx = 0 ∧
      (handleKeyPress (constructorFields 20 0) "ArrowUp").dy = 0 :=
  key_ignored_when_not_running (constructorFields 20 0) "ArrowUp" (by decide)

/-- In a paused game (`gameRunning` and `gamePaused` both true) heading right,
the key `ArrowUp` changes the direction to up. -/
theorem paused_key_changes_direction :
    scenarioPaused.gameRunning = true ∧ scenarioPaused.gamePaused = true ∧
      scenarioPaused.dx = 1 ∧ scenarioPaused.dy = 0 ∧
      keyDirection "ArrowUp" = some (0, -1) ∧
      (handleKeyPress scenarioPaused "ArrowUp").dx = 0 ∧
      (handleKeyPress scenarioPaused "ArrowUp").dy = -1 := by
  decide

/-- The `touchend` listener reads neither `gameRunning` nor `gamePaused`: its
result on the direction is the same in every session state. -/
theorem touchEnd_ignores_session_state (g : SnakeGame) (running paused : Bool)
    (sx sy ex ey : Int) :
    (touchEnd { g with gameRunning := running, gamePaused := paused } sx sy ex ey).dx =
        (touchEnd g sx sy ex ey).dx ∧
      (touchEnd { g with gameRunning := running, gamePaused := paused } sx sy ex ey).dy =
        (touchEnd g sx sy ex ey).dy := by
  unfold touchEnd
  dsimp only
  split_ifs <;> exact ⟨rfl, rfl⟩

/-- A swipe to the right in the constructor's (Idle) state sets the direction
to right. -/
theorem touchEnd_idle_changes_direction :
    (constructorFields 20 0).gameRunning = false ∧ (constructorFields 20 0).dx = 0 ∧
      (touchEnd (constructorFields 20 0) 100 100 160 100).dx = 1 := by
  decide

/-- The direction `handleKeyPress` leaves does not depend on `gamePaused`: a
key pressed while paused is handled as while running. -/
theorem handleKeyPress_ignores_paused (g : SnakeGame) (paused : Bool) (key : String) :
    (handleKeyPress { g with gamePaused := paused } key).dx = (handleKeyPress g key).dx ∧
      (handleKeyPress { g with gamePaused := paused } key).dy = (handleKeyPress g key).dy := by
  unfold handleKeyPress togglePause
  dsimp only
  split_ifs <;> exact ⟨rfl, rfl⟩

/-- The four ways `update` returns: it did nothing, it ended the game, it moved
the snake, or it fed the snake. -/
theorem update_cases (g g1 : SnakeGame) (rnd : Nat → ℚ) (h : update g rnd = some g1) :
    g1 = g ∨ g1 = gameOver { g with previousSnake := g.snake } ∨
    (∃ head, g.snake ≠ [] ∧
      g1 = { g with previousSnake := g.snake, snake := (head :: g.snake).dropLast,
                    interpolationFactor := 0 }) ∨
    (∃ head,
      g1 = { g with previousSnake := g.snake, snake := head :: g.snake, score := g.score + 10,
                    food := generateFood (grown g head) rnd,
                    speed := if (g.score + 10).tmod 50 = 0 ∧ g.speed > 50
                      then g.speed - 10 else g.speed,
                    interpolationFactor := 0 }) := by
  by_cases hidle : g.gameRunning = false ∨ g.gamePaused = true
  · rw [update_of_idle g rnd hidle, Option.some.injEq] at h
    exact Or.inl h.symm
  · have hrun : g.gameRunning = true := by
      cases hr : g.gameRunning with
      | true => rfl
      | false => exact absurd (Or.inl hr) hidle
    have hpause : g.gamePaused = false := by
      cases hp : g.gamePaused with
      | false => rfl
      | true => exact absurd (Or.inr hp) hidle
    cases hs : g.snake with
    | nil =>
      have hnone : update g rnd = none := by
        unfold update
        rw [if_neg (by simp [hrun, hpause])]
        simp [candidateHead, hs]
      rw [hnone] at h
      exact absurd h (by simp)
    | cons s0 rest =>
      have hne : g.snake ≠ [] := by simp [hs]
      have hhead : candidateHead g = some { x := s0.x + g.dx, y := s0.y + g.dy } := by
        simp [candidateHead, hs]
      generalize ({ x := s0.x + g.dx, y := s0.y + g.dy } : Cell) = head at hhead
      rw [← hs]
      cases hw : wallCollision g head with
      | true =>
        rw [update_of_wall g rnd head hrun hpause hhead hw, Option.some.injEq] at h
        exact Or.inr (Or.inl h.symm)
      | false =>
        cases hsc : selfCollision g head with
        | true =>
          rw [update_of_self g rnd head hrun hpause hhead hw hsc, Option.some.injEq] at h
          exact Or.inr (Or.inl h.symm)
        | false =>
          cases hf : foodCollision g head with
          | true =>
            rw [update_of_food g rnd head hrun hpause hhead hw hsc hf, Option.some.injEq] at h
            exact Or.inr (Or.inr (Or.inr ⟨head, h.symm⟩))
          | false =>
            rw [update_of_move g rnd head hrun hpause hhead hw hsc hf, Option.some.injEq] at h
            exact Or.inr (Or.inr (Or.inl ⟨head, hne, h.symm⟩))

theorem speedOk_step (speed score : Int) (h : 50 ≤ speed ∧ 10 ∣ speed) :
    (50 ≤ (if score.tmod 50 = 0 ∧ speed > 50 then speed - 10 else speed) ∧
      10 ∣ (if score.tmod 50 = 0 ∧ speed > 50 then speed - 10 else speed)) ∧
    (if score.tmod 50 = 0 ∧ speed > 50 then speed - 10 else speed) ≤ speed := by
  obtain ⟨h50, h10⟩ := h
  split_ifs with hc
  · refine ⟨⟨?_, ?_⟩, by omega⟩
    · omega
    · omega
  · exact ⟨⟨h50, h10⟩, le_refl _⟩

/-- What `update` leaves alone: the accumulator, the last frame time and the
grid; it never raises the speed, keeps it on the schedule, and keeps a snake
with a head. -/
theorem update_frame (g g1 : SnakeGame) (rnd : Nat → ℚ) (h : update g rnd = some g1) :
    g1.accumulator = g.accumulator ∧ g1.lastUpdateTime = g.lastUpdateTime ∧
    g1.tileCount = g.tileCount ∧
    (50 ≤ g.speed → g1.speed ≤ g.speed) ∧ (SpeedOk g → SpeedOk g1) ∧
    (g.snake ≠ [] → g1.snake ≠ []) := by
  rcases update_cases g g1 rnd h with h1 | h1 | ⟨head, hne, h1⟩ | ⟨head, h1⟩
  · subst h1
    exact ⟨rfl, rfl, rfl, fun _ => le_refl _, id, id⟩
  · subst h1
    unfold gameOver SpeedOk
    dsimp only
    split_ifs <;> exact ⟨rfl, rfl, rfl, fun _ => le_refl _, id, id⟩
  · subst h1
    refine ⟨rfl, rfl, rfl, fun _ => le_refl _, id, fun _ => ?_⟩
    show (head :: g.snake).dropLast ≠ []
    rw [List.dropLast_cons_of_ne_nil hne]
    exact List.cons_ne_nil _ _
  · subst h1
    refine ⟨rfl, rfl, rfl, ?_, ?_, fun _ => List.cons_ne_nil _ _⟩
    · intro _
      show (if (g.score + 10).tmod 50 = 0 ∧ g.speed > 50 then g.speed - 10 else g.speed)
        ≤ g.speed
      split_ifs <;> omega
    · intro hok
      exact (speedOk_step g.speed (g.score + 10) hok).1

/-- The `while` loop of `gameLoop` ends when the speed is on the schedule, the
snake has a head and the bound on the passes exceeds the accumulator. It never
raises the speed and leaves an accumulator below the speed, non-negative when
it started so; when it leaves the speed as it found it, it made
`accumulator / speed` calls of `update` and left `accumulator % speed`. -/
theorem tickLoop_spec (rnds : Nat → Nat → ℚ) (fuel : Nat) :
    ∀ (g : SnakeGame) (calls : Nat), SpeedOk g → g.snake ≠ [] → 0 < fuel →
      g.accumulator < fuel →
      ∃ g1 n, tickLoop rnds fuel g calls = .done g1 (calls + n) ∧
        SpeedOk g1 ∧ g1.snake ≠ [] ∧ g1.speed ≤ g.speed ∧
        g1.accumulator < g1.speed ∧ (0 ≤ g.accumulator → 0 ≤ g1.accumulator) ∧
        g1.lastUpdateTime = g.lastUpdateTime ∧ g1.tileCount = g.tileCount ∧
        g1.accumulator ≤ g.accumulator ∧
        (g1.speed = g.speed → 0 ≤ g.accumulator →
          (n : Int) = g.accumulator / g.speed ∧
            g1.accumulator = g.accumulator % g.speed) := by
  induction fuel with
  | zero => intro g calls _ _ h; exact absurd h (lt_irrefl 0)
  | succ fuel ih =>
    intro g calls hok hne _ hacc
    by_cases hge : g.accumulator ≥ g.speed
    · obtain ⟨u, hu⟩ := Option.isSome_iff_exists.1 (update_isSome_of_ne_nil g (rnds calls) hne)
      obtain ⟨hua, hut, hutc, husp, huok, hune⟩ := update_frame g u (rnds calls) hu
      have huok1 : SpeedOk u := huok hok
      have husp1 : u.speed ≤ g.speed := husp hok.1
      have h50 : 50 ≤ u.speed := huok1.1
      have hg50 : 50 ≤ g.speed := hok.1
      have hacc1 : g.accumulator < (fuel : Int) + 1 := by exact_mod_cast hacc
      obtain ⟨g1, n, hloop, h1, h2, h3, h4, h5, h6, h7, h9, h8⟩ :=
        ih { u with accumulator := u.accumulator - u.speed } (calls + 1) huok1 (hune hne)
          (by omega) (by show u.accumulator - u.speed < (fuel : Int); omega)
      have h9a : g1.accumulator ≤ u.accumulator - u.speed := h9
      have h3a : g1.speed ≤ u.speed := h3
      have h5a : 0 ≤ u.accumulator - u.speed → 0 ≤ g1.accumulator := h5
      have h8a : g1.speed = u.speed → 0 ≤ u.accumulator - u.speed →
          (n : Int) = (u.accumulator - u.speed) / u.speed ∧
            g1.accumulator = (u.accumulator - u.speed) % u.speed := h8
      refine ⟨g1, n + 1, ?_, h1, h2, by omega, h4, fun _ => h5a (by omega),
        h6.trans hut, h7.trans hutc, by omega, ?_⟩
      · have hstep : tickLoop rnds (fuel + 1) g calls =
            tickLoop rnds fuel { u with accumulator := u.accumulator - u.speed } (calls + 1) := by
          conv_lhs => unfold tickLoop
          simp only [hge, if_true, hu]
        rw [hstep, hloop]
        congr 1
        omega
      · intro hsp _
        have hus : u.speed = g.speed := by omega
        obtain ⟨hn, ha⟩ := h8a (by omega) (by omega)
        rw [hus, hua] at hn ha
        have hne0 : g.speed ≠ 0 := by omega
        have hsplit : g.accumulator = (g.accumulator - g.speed) + 1 * g.speed := by ring
        have hdiv : g.accumulator / g.speed = (g.accumulator - g.speed) / g.speed + 1 := by
          conv_lhs => rw [hsplit]
          exact Int.add_mul_ediv_right _ _ hne0
        have hmod : g.accumulator % g.speed = (g.accumulator - g.speed) % g.speed := by
          conv_lhs => rw [hsplit]
          exact Int.add_mul_emod_self
        constructor
        · rw [hdiv, ← hn]
          push_cast
          rfl
        · rw [ha, hmod]
    · have hlt : g.accumulator < g.speed := not_le.1 hge
      refine ⟨g, 0, ?_, hok, hne, le_refl _, hlt, id, rfl, rfl, le_refl _, ?_⟩
      · conv_lhs => unfold tickLoop
        simp only [hge, if_false, Nat.add_zero]
      · intro _ h0
        exact ⟨by rw [Int.ediv_eq_zero_of_lt h0 hlt]; rfl, (Int.emod_eq_of_lt h0 hlt).symm⟩

/-- A frame of `gameLoop` ends under the same conditions, with
`A = accumulator + (currentTime - lastUpdateTime)` below the bound; it records
`currentTime`, and sets the interpolation factor to the accumulator it leaves
divided by the speed it leaves. -/
theorem gameLoop_spec (g : SnakeGame) (currentTime : Int) (rnds : Nat → Nat → ℚ) (fuel : Nat)
    (hok : SpeedOk g) (hne : g.snake ≠ []) (hfuel : 0 < fuel)
    (hacc : g.accumulator + (currentTime - g.lastUpdateTime) < fuel) :
    ∃ g1 n, gameLoop g currentTime rnds fuel = .done g1 n ∧
      SpeedOk g1 ∧ g1.snake ≠ [] ∧ g1.speed ≤ g.speed ∧
      g1.accumulator < g1.speed ∧
      (0 ≤ g.accumulator + (currentTime - g.lastUpdateTime) → 0 ≤ g1.accumulator) ∧
      g1.lastUpdateTime = currentTime ∧ g1.tileCount = g.tileCount ∧
      g1.interpolationFactor = (g1.accumulator : ℚ) / (g1.speed : ℚ) ∧
      g1.accumulator ≤ g.accumulator + (currentTime - g.lastUpdateTime) ∧
      (g1.speed = g.speed → 0 ≤ g.accumulator + (currentTime - g.lastUpdateTime) →
        (n : Int) = (g.accumulator + (currentTime - g.lastUpdateTime)) / g.speed ∧
          g1.accumulator = (g.accumulator + (currentTime - g.lastUpdateTime)) % g.speed) := by
  obtain ⟨g1, n, hloop, h1, h2, h3, h4, h5, h6, h7, h9, h8⟩ :=
    tickLoop_spec rnds fuel
      { g with lastUpdateTime := currentTime,
               accumulator := g.accumulator + (currentTime - g.lastUpdateTime) }
      0 hok hne hfuel hacc
  rw [Nat.zero_add] at hloop
  refine ⟨{ g1 with interpolationFactor := (g1.accumulator : ℚ) / (g1.speed : ℚ) }, n, ?_,
    h1, h2, h3, h4, h5, h6, h7, rfl, h9, h8⟩
  unfold gameLoop
  simp only [hloop]

theorem generateFood_of_free (g : SnakeGame) (rnd : Nat → ℚ)
    (h : occupied g.snake (sampleCell g.tileCount rnd 0) = false) :
    generateFood g rnd = sampleCell g.tileCount rnd 0 := by
  unfold generateFood
  rw [generateFoodLoop_exit g rnd 0 (Or.inl h)]
  simp [maxAttempts]

theorem generateFood_zero (g : SnakeGame) (h : ({ x := 0, y := 0 } : Cell) ∉ g.snake) :
    generateFood g (fun _ => 0) = { x := 0, y := 0 } := by
  have hs : sampleCell g.tileCount (fun _ => 0) 0 = { x := 0, y := 0 } := by
    simp [sampleCell]
  rw [generateFood_of_free g _ (by rw [hs]; exact (occupied_eq_false_iff _ _).2 h), hs]

theorem generateFood_rndAt (g : SnakeGame) (x y : Int) (ht : g.tileCount = 20)
    (h : ({ x := x, y := y } : Cell) ∉ g.snake) :
    generateFood g (rndAt x y) = { x := x, y := y } := by
  have hs : sampleCell g.tileCount (rndAt x y) 0 = { x := x, y := y } := by
    simp [sampleCell, rndAt, ht]
  rw [generateFood_of_free g _ (by rw [hs]; exact (occupied_eq_false_iff _ _).2 h), hs]

theorem update_of_food_grown (g : SnakeGame) (rnd : Nat → ℚ) (head : Cell)
    (hrun : g.gameRunning = true) (hpause : g.gamePaused = false)
    (hhead : candidateHead g = some head) (hw : wallCollision g head = false)
    (hs : selfCollision g head = false) (hf : foodCollision g head = true) :
    update g rnd = some
      { grown g head with
        food := generateFood (grown g head) rnd,
        speed := if (g.score + 10).tmod 50 = 0 ∧ g.speed > 50 then g.speed - 10 else g.speed,
        interpolationFactor := 0 } :=
  update_of_food g rnd head hrun hpause hhead hw hs hf

theorem reachable_run (tileCount : Int) (ops : List Op) :
    ∀ g g1 : SnakeGame, Reachable tileCount g → run g ops = some g1 →
      Reachable tileCount g1 := by
  induction ops with
  | nil =>
    intro g g1 hg hr
    simp only [run, Option.some.injEq] at hr
    exact hr ▸ hg
  | cons op ops ih =>
    intro g g1 hg hr
    simp only [run] at hr
    cases hop : op.apply g with
    | none => simp [hop] at hr
    | some g2 =>
      rw [hop, Option.some_bind] at hr
      exact ih g2 g1 (Reachable.step g g2 op hg hop) hr

theorem reachableLoop_of_reachable (tileCount : Int) (g : SnakeGame)
    (h : Reachable tileCount g) : ReachableLoop tileCount g := by
  induction h with
  | init highScore rnd => exact ReachableLoop.init highScore rnd
  | step g g1 op _ hop ih => exact ReachableLoop.step g g1 op ih hop

/-- The game that is started and runs into the right wall is reachable: ten
ticks after `startGame` the snake `[(19,10)]` has hit the wall. -/
theorem reachable_scenarioDead : Reachable 20 scenarioDead := by
  have hnew : new 20 0 (fun _ => 0) = constructorFields 20 0 := by
    unfold new
    simp only
    rw [generateFood_zero _ (by decide)]
    rfl
  have hinit : Reachable 20 (constructorFields 20 0) := hnew ▸ Reachable.init 0 (fun _ => 0)
  refine reachable_run 20
    (Op.startGame :: List.replicate 10 (Op.update (fun _ => 0))) _ _ hinit ?_
  decide

/-- C11, as the code has it. `startGame` acts whenever `gameRunning` is false,
so also in the state a collision leaves: when a tick of a running game ends it
(`gameRunning` false afterwards), `startGame` makes the session running again
with direction `(1,0)`, and the snake and the score are those of the ended
game, not reset. It is a no-op only in the states with `gameRunning` true. -/
theorem startGame_after_gameOver (g g1 : SnakeGame) (rnd : Nat → ℚ)
    (hrun : g.gameRunning = true) (hpause : g.gamePaused = false)
    (hu : update g rnd = some g1) (hover : g1.gameRunning = false) :
    startGame g1 = { g1 with gameRunning := true, gamePaused := false, dx := 1, dy := 0 } ∧
      (startGame g1).gameRunning = true ∧
      (startGame g1).snake = g.snake ∧ (startGame g1).score = g.score ∧
      ∀ g2 : SnakeGame, startGame g2 = g2 ↔ g2.gameRunning = true := by
  have hstart : startGame g1 =
      { g1 with gameRunning := true, gamePaused := false, dx := 1, dy := 0 } := by
    unfold startGame
    rw [if_pos (by simp [hover])]
  have hkeep : g1.snake = g.snake ∧ g1.score = g.score := by
    rcases update_cases g g1 rnd hu with h1 | h1 | ⟨head, _, h1⟩ | ⟨head, h1⟩
    · subst h1
      exact ⟨rfl, rfl⟩
    · obtain ⟨-, -, h3, h4, -⟩ := gameOver_fields { g with previousSnake := g.snake }
      rw [h1]
      exact ⟨h3, h4⟩
    · rw [h1] at hover
      exact absurd (hrun.symm.trans hover) (by decide)
    · rw [h1] at hover
      exact absurd (hrun.symm.trans hover) (by decide)
  have hnoop : ∀ g2 : SnakeGame, startGame g2 = g2 ↔ g2.gameRunning = true := by
    intro g2
    unfold startGame
    cases hr : g2.gameRunning with
    | true => simp
    | false =>
      simp only [Bool.not_false, if_true, Bool.false_eq_true, iff_false]
      intro h
      have h2 := congrArg SnakeGame.gameRunning h
      simp only [hr] at h2
      exact absurd h2 (by decide)
  rw [hstart]
  exact ⟨rfl, rfl, hkeep.1, hkeep.2, hnoop⟩

/-- After the tick that runs the snake `[(19,10)]` into the right wall,
`startGame` resumes the game with that snake. -/
theorem startGame_after_gameOver_witness :
    update scenarioEdge (fun _ => 0) = some scenarioDead ∧
      (startGame scenarioDead).gameRunning = true ∧
      (startGame scenarioDead).snake = [{ x := 19, y := 10 }] ∧
      (startGame scenarioDead).score = 0 := by
  have hu : update scenarioEdge (fun _ => 0) = some scenarioDead := by decide
  obtain ⟨-, h2, h3, h4, -⟩ :=
    startGame_after_gameOver scenarioEdge scenarioDead (fun _ => 0) (by decide) (by decide)
      hu (by decide)
  exact ⟨hu, h2, h3, h4⟩

/-- The state `scenarioDead`, reached from the constructor's state by
`startGame` and ten ticks, is a GameOver state (`update` ended the game on the
wall test), and `startGame` is not a no-op in it: the session is running again
without `restartGame`, the snake still at `(19,10)`. -/
theorem startGame_not_noop_after_gameOver :
    run (constructorFields 20 0)
        (Op.startGame :: List.replicate 10 (Op.update (fun _ => 0))) = some scenarioDead ∧
      candidateHead scenarioEdge = some { x := 20, y := 10 } ∧
      wallCollision scenarioEdge { x := 20, y := 10 } = true ∧
      update scenarioEdge (fun _ => 0) = some scenarioDead ∧
      scenarioDead.gameRunning = false ∧
      startGame scenarioDead ≠ scenarioDead ∧
      (startGame scenarioDead).gameRunning = true ∧
      (startGame scenarioDead).snake = [{ x := 19, y := 10 }] := by
  decide

theorem update_meal (g g1 : SnakeGame) (head next : Cell) (ht : g.tileCount = 20)
    (hrun : g.gameRunning = true) (hpause : g.gamePaused = false)
    (hhead : candidateHead g = some head) (hw : wallCollision g head = false)
    (hs : selfCollision g head = false) (hf : foodCollision g head = true)
    (hfree : next ∉ head :: g.snake)
    (hg1 : { grown g head with
             food := next,
             speed := if (g.score + 10).tmod 50 = 0 ∧ g.speed > 50
               then g.speed - 10 else g.speed,
             interpolationFactor := 0 } = g1) :
    update g (rndAt next.x next.y) = some g1 := by
  rw [update_of_food_grown g _ head hrun hpause hhead hw hs hf,
    generateFood_rndAt (grown g head) next.x next.y ht hfree, hg1]

/-- Each meal of the row: from `fed k` a tick eats the food just ahead and,
with `Math.random` placing the next food just ahead again, yields `fed (k+1)`. -/
theorem update_fed (k : Nat) (hk : k < 5) :
    update (fed k) (rndAt (12 + (k : Int)) 10) = some (fed (k + 1)) := by
  interval_cases k
  · exact update_meal (fed 0) (fed 1) { x := 11, y := 10 } { x := 12, y := 10 } rfl
      (by decide) (by decide) (by decide) (by decide) (by decide) (by decide) (by decide)
      (by decide)
  · exact update_meal (fed 1) (fed 2) { x := 12, y := 10 } { x := 13, y := 10 } rfl
      (by decide) (by decide) (by decide) (by decide) (by decide) (by decide) (by decide)
      (by decide)
  · exact update_meal (fed 2) (fed 3) { x := 13, y := 10 } { x := 14, y := 10 } rfl
      (by decide) (by decide) (by decide) (by decide) (by decide) (by decide) (by decide)
      (by decide)
  · exact update_meal (fed 3) (fed 4) { x := 14, y := 10 } { x := 15, y := 10 } rfl
      (by decide) (by decide) (by decide) (by decide) (by decide) (by decide) (by decide)
      (by decide)
  · exact update_meal (fed 4) (fed 5) { x := 15, y := 10 } { x := 16, y := 10 } rfl
      (by decide) (by decide) (by decide) (by decide) (by decide) (by decide) (by decide)
      (by decide)

theorem reachable_fed (k : Nat) (hk : k ≤ 5) : Reachable 20 (fed k) := by
  induction k with
  | zero =>
    have hnew : startGame (new 20 0 (rndAt 11 10)) = fed 0 := by
      unfold new
      simp only
      rw [generateFood_rndAt _ _ _ rfl (by decide)]
      decide
    exact hnew ▸ Reachable.step _ _ Op.startGame (Reachable.init 0 (rndAt 11 10)) rfl
  | succ k ih =>
    exact Reachable.step (fed k) (fed (k + 1)) (Op.update (rndAt (12 + (k : Int)) 10))
      (ih (by omega)) (update_fed k (by omega))

/-- C12, the failing input. `restartGame` resets the flags, the snake, the
direction and the score, and leaves `speed` as it finds it. In the reachable
state `fed 5` (five meals, score 50) the speed is 140, and after `restartGame`
it is still 140, not the constructor's 150. -/
theorem restartGame_keeps_speed :
    (∀ (g : SnakeGame) (rnd : Nat → ℚ),
      (restartGame g rnd).gameRunning = false ∧ (restartGame g rnd).gamePaused = false ∧
      (restartGame g rnd).snake = [{ x := 10, y := 10 }] ∧
      (restartGame g rnd).dx = 0 ∧ (restartGame g rnd).dy = 0 ∧
      (restartGame g rnd).score = 0 ∧ (restartGame g rnd).speed = g.speed) ∧
    Reachable 20 (fed 5) ∧ (fed 5).speed = 140 ∧
    (restartGame (fed 5) (fun _ => 0)).score = 0 ∧
    (restartGame (fed 5) (fun _ => 0)).speed = 140 ∧
    (constructorFields 20 0).speed = 150 :=
  ⟨fun _ _ => ⟨rfl, rfl, rfl, rfl, rfl, rfl, rfl⟩, reachable_fed 5 (le_refl 5),
    by decide, by decide, by decide, by decide⟩

theorem generateFoodLoop_congr (g g1 : SnakeGame) (rnd : Nat → ℚ)
    (ht : g1.tileCount = g.tileCount) (hs : g1.snake = g.snake) (attempts : Nat) :
    generateFoodLoop g1 rnd attempts = generateFoodLoop g rnd attempts := by
  induction attempts using generateFoodLoop.induct g rnd with
  | case1 x newFood hcond ih =>
    simp only [Bool.and_eq_true, decide_eq_true_eq] at hcond
    rw [generateFoodLoop_again g rnd x hcond.1 hcond.2,
      generateFoodLoop_again g1 rnd x (by rw [hs, ht]; exact hcond.1) hcond.2]
    exact ih
  | case2 x newFood hcond =>
    simp only [Bool.and_eq_true, decide_eq_true_eq, not_and, not_lt] at hcond
    have hex : occupied g.snake (sampleCell g.tileCount rnd x) = false ∨
        maxAttempts ≤ x + 1 := by
      cases hocc : occupied g.snake (sampleCell g.tileCount rnd x) with
      | false => exact Or.inl rfl
      | true => exact Or.inr (hcond hocc)
    rw [generateFoodLoop_exit g rnd x hex,
      generateFoodLoop_exit g1 rnd x (by rw [hs, ht]; exact hex), ht]

theorem generateFood_congr (g g1 : SnakeGame) (rnd : Nat → ℚ)
    (ht : g1.tileCount = g.tileCount) (hs : g1.snake = g.snake) :
    generateFood g1 rnd = generateFood g rnd := by
  unfold generateFood
  rw [generateFoodLoop_congr g g1 rnd ht hs 0]

/-- C13, as the code has it. A second `restartGame` in a row leaves every
field as the first left it except the food, which it places anew from its own
`Math.random` draws: the result is what a single `restartGame` with those
draws gives, and it is the state after the first call with the food replaced. -/
theorem restartGame_twice (g : SnakeGame) (rnd1 rnd2 : Nat → ℚ) :
    restartGame (restartGame g rnd1) rnd2 = restartGame g rnd2 ∧
      restartGame (restartGame g rnd1) rnd2 =
        { restartGame g rnd1 with food := (restartGame g rnd2).food } ∧
      restartGame (restartGame g rnd1) rnd1 = restartGame g rnd1 := by
  have key : ∀ r1 r2 : Nat → ℚ, restartGame (restartGame g r1) r2 = restartGame g r2 := by
    intro r1 r2
    unfold restartGame
    simp only [SnakeGame.mk.injEq, and_true, true_and]
    exact generateFood_congr _ _ r2 rfl rfl
  refine ⟨key rnd1 rnd2, ?_, key rnd1 rnd1⟩
  rw [key rnd1 rnd2]
  rfl

/-- Two calls of `restartGame` in a row on the constructor's fields, the
first drawing the cell `(0,0)` and the second the cell `(5,5)`: the food moves,
so the state after two calls is not the state after one. -/
theorem restartGame_twice_moves_food :
    (restartGame (constructorFields 20 0) (fun _ => 0)).food = { x := 0, y := 0 } ∧
      (restartGame (restartGame (constructorFields 20 0) (fun _ => 0)) (rndAt 5 5)).food =
        { x := 5, y := 5 } ∧
      restartGame (restartGame (constructorFields 20 0) (fun _ => 0)) (rndAt 5 5) ≠
        restartGame (constructorFields 20 0) (fun _ => 0) := by
  have h1 : (restartGame (constructorFields 20 0) (fun _ => 0)).food = { x := 0, y := 0 } :=
    generateFood_zero _ (by decide)
  have h2 : (restartGame (restartGame (constructorFields 20 0) (fun _ => 0)) (rndAt 5 5)).food =
      { x := 5, y := 5 } :=
    generateFood_rndAt _ 5 5 rfl (by decide)
  refine ⟨h1, h2, fun h => ?_⟩
  have h3 := congrArg SnakeGame.food h
  rw [h1, h2] at h3
  exact absurd h3 (by decide)

theorem tickLoop_speedOk (rnds : Nat → Nat → ℚ) (fuel : Nat) :
    ∀ (g g1 : SnakeGame) (calls n : Nat), tickLoop rnds fuel g calls = .done g1 n →
      SpeedOk g → SpeedOk g1 := by
  induction fuel with
  | zero =>
    intro g g1 calls n h
    simp [tickLoop] at h
  | succ fuel ih =>
    intro g g1 calls n h hok
    unfold tickLoop at h
    split_ifs at h with hge
    · cases hu : update g (rnds calls) with
      | none => simp [hu] at h
      | some u =>
        simp only [hu] at h
        exact ih _ g1 _ n h ((update_frame g u (rnds calls) hu).2.2.2.2.1 hok)
    · simp only [LoopResult.done.injEq] at h
      exact h.1 ▸ hok

theorem gameLoop_speedOk (g g1 : SnakeGame) (currentTime : Int) (rnds : Nat → Nat → ℚ)
    (fuel n : Nat) (h : gameLoop g currentTime rnds fuel = .done g1 n) (hok : SpeedOk g) :
    SpeedOk g1 := by
  unfold gameLoop at h
  simp only at h
  split at h
  · rename_i g3 calls hloop
    simp only [LoopResult.done.injEq] at h
    have h3 : SpeedOk g3 := tickLoop_speedOk rnds fuel _ g3 0 calls hloop hok
    exact h.1 ▸ h3
  · rename_i hnot
    exact absurd h (hnot g1 n)

theorem reachableLoop_speedOk (tileCount : Int) (g : SnakeGame)
    (h : ReachableLoop tileCount g) : SpeedOk g := by
  induction h with
  | init highScore rnd =>
    show (50 : Int) ≤ 150 ∧ (10 : Int) ∣ 150
    exact ⟨by decide, by decide⟩
  | step g g1 op _ hop ih =>
    cases op with
    | startGame =>
      simp only [Op.apply, Option.some.injEq] at hop
      subst hop
      unfold startGame
      split_ifs
      · exact ih
      · exact ih
    | togglePause =>
      simp only [Op.apply, Option.some.injEq] at hop
      subst hop
      unfold togglePause
      split_ifs
      · exact ih
      · exact ih
    | restartGame rnd =>
      simp only [Op.apply, Option.some.injEq] at hop
      subst hop
      exact ih
    | key k =>
      simp only [Op.apply, Option.some.injEq] at hop
      subst hop
      unfold handleKeyPress togglePause
      split_ifs <;> exact ih
    | touch sx sy ex ey =>
      simp only [Op.apply, Option.some.injEq] at hop
      subst hop
      unfold touchEnd
      dsimp only
      split_ifs <;> exact ih
    | update rnd => exact (update_frame g g1 rnd hop).2.2.2.2.1 ih
  | frame g g1 currentTime rnds fuel calls _ hloop ih =>
    exact gameLoop_speedOk g g1 currentTime rnds fuel calls hloop ih

/-- C14. In every state reachable from the constructor's state (speed 150) by
the operations and by frames of `gameLoop`, the speed is positive and at least
50; and when such a state is running at speed 150 with score 40 and the food
just ahead, the tick brings the score to 50 and the speed to 140. -/
theorem speed_never_below_floor (tileCount : Int) (g : SnakeGame)
    (h : ReachableLoop tileCount g) :
    (0 < g.speed ∧ 50 ≤ g.speed) ∧
    ∀ (rnd : Nat → ℚ) (s0 : Cell) (rest : List Cell),
      g.gameRunning = true → g.gamePaused = false → g.snake = s0 :: rest →
      inGrid g.tileCount { x := s0.x + g.dx, y := s0.y + g.dy } →
      ({ x := s0.x + g.dx, y := s0.y + g.dy } : Cell) ∉ g.snake →
      ({ x := s0.x + g.dx, y := s0.y + g.dy } : Cell) = g.food →
      g.score + 10 = 50 → g.speed = 150 →
      ∃ g1, update g rnd = some g1 ∧ g1.score = 50 ∧ g1.speed = 140 := by
  obtain ⟨h50, -⟩ := reachableLoop_speedOk tileCount g h
  refine ⟨⟨by omega, h50⟩, ?_⟩
  intro rnd s0 rest hrun hpause hsnake hgrid hself hfood hscore hspeed
  have hhead := candidateHead_of_cons g s0 rest hsnake
  have hw : wallCollision g { x := s0.x + g.dx, y := s0.y + g.dy } = false :=
    (wallCollision_eq_false_iff _ _).2 hgrid
  have hs : selfCollision g { x := s0.x + g.dx, y := s0.y + g.dy } = false :=
    (occupied_eq_false_iff _ _).2 hself
  have hf : foodCollision g { x := s0.x + g.dx, y := s0.y + g.dy } = true :=
    (foodCollision_iff g _).2 hfood
  refine ⟨_, update_of_food g rnd _ hrun hpause hhead hw hs hf, hscore, ?_⟩
  show (if (g.score + 10).tmod 50 = 0 ∧ g.speed > 50 then g.speed - 10 else g.speed) = 140
  rw [hscore, hspeed]
  decide

/-- The reachable state `fed 4` (score 40, speed 150, food just ahead): its
speed is within the bounds, and its next tick makes the score 50 and the
speed 140. -/
theorem speed_never_below_floor_witness :
    (0 < (fed 4).speed ∧ 50 ≤ (fed 4).speed) ∧
      ∃ g1, update (fed 4) (rndAt 16 10) = some g1 ∧ g1.score = 50 ∧ g1.speed = 140 := by
  obtain ⟨h1, h2⟩ := speed_never_below_floor 20 (fed 4)
    (reachableLoop_of_reachable 20 (fed 4) (reachable_fed 4 (by decide)))
  exact ⟨h1, h2 (rndAt 16 10) { x := 14, y := 10 }
    [{ x := 13, y := 10 }, { x := 12, y := 10 }, { x := 11, y := 10 }, { x := 10, y := 10 }]
    (by decide) (by decide) (by decide)
    (by decide) (by decide) (by decide) (by decide) (by decide)⟩

theorem tickLoop_succ_of_update (rnds : Nat → Nat → ℚ) (fuel : Nat) (g u : SnakeGame)
    (calls : Nat) (hge : g.accumulator ≥ g.speed) (hu : update g (rnds calls) = some u) :
    tickLoop rnds (fuel + 1) g calls =
      tickLoop rnds fuel { u with accumulator := u.accumulator - u.speed } (calls + 1) := by
  conv_lhs => unfold tickLoop
  simp only [hge, if_true, hu]

theorem gameLoop_calls (g : SnakeGame) (currentTime : Int) (rnds : Nat → Nat → ℚ)
    (fuel : Nat) :
    (gameLoop g currentTime rnds fuel).calls? =
        (tickLoop rnds fuel (frameStart g currentTime) 0).calls? ∧
      (gameLoop g currentTime rnds fuel).state?.map (fun s => (s.accumulator, s.speed)) =
        (tickLoop rnds fuel (frameStart g currentTime) 0).state?.map
          (fun s => (s.accumulator, s.speed)) := by
  have hg : gameLoop g currentTime rnds fuel =
      match tickLoop rnds fuel (frameStart g currentTime) 0 with
      | .done g3 calls =>
        .done { g3 with interpolationFactor := (g3.accumulator : ℚ) / (g3.speed : ℚ) } calls
      | r => r := rfl
  rw [hg]
  cases tickLoop rnds fuel (frameStart g currentTime) 0 <;> exact ⟨rfl, rfl⟩

/-- C15, as the code has it. A frame of `gameLoop` that starts with the speed
on the schedule and `A = accumulator + (currentTime - lastUpdateTime)` not
negative ends (for every bound `fuel` on the loop passes above `A`); the speed
it leaves is at most the speed `T` it found, and when the two are equal (no
tick of the frame changed the speed) `update` was called exactly `A / T` times
and the accumulator is `A - (A / T) * T`. -/
theorem gameLoop_ticks (g : SnakeGame) (currentTime : Int) (rnds : Nat → Nat → ℚ) (fuel : Nat)
    (hok : SpeedOk g) (hne : g.snake ≠ [])
    (hA : 0 ≤ g.accumulator + (currentTime - g.lastUpdateTime))
    (hfuel : g.accumulator + (currentTime - g.lastUpdateTime) < fuel) :
    ∃ g1 n, gameLoop g currentTime rnds fuel = .done g1 n ∧ g1.speed ≤ g.speed ∧
      (g1.speed = g.speed →
        (n : Int) = (g.accumulator + (currentTime - g.lastUpdateTime)) / g.speed ∧
        g1.accumulator = (g.accumulator + (currentTime - g.lastUpdateTime)) -
          (g.accumulator + (currentTime - g.lastUpdateTime)) / g.speed * g.speed) := by
  have hpos : 0 < fuel := by
    have : (0 : Int) < (fuel : Int) := lt_of_le_of_lt hA hfuel
    exact_mod_cast this
  obtain ⟨g1, n, hloop, -, -, hsp, -, -, -, -, -, -, hcount⟩ :=
    gameLoop_spec g currentTime rnds fuel hok hne hpos hfuel
  refine ⟨g1, n, hloop, hsp, fun heq => ?_⟩
  obtain ⟨hn, ha⟩ := hcount heq hA
  refine ⟨hn, ?_⟩
  rw [ha, Int.emod_def, mul_comm]

/-- A running game at speed 150 whose frame has `A = 310` and eats nothing:
two ticks, accumulator 10. -/
theorem gameLoop_ticks_witness :
    ∃ g1 n, gameLoop scenarioRight 310 (fun _ _ => 0) 311 = .done g1 n ∧
      n = 2 ∧ g1.accumulator = 10 := by
  have hs : (gameLoop scenarioRight 310 (fun _ _ => 0) 311).state?.map (fun s => s.speed) =
      some 150 := by decide
  obtain ⟨g1, n, h, -, hc⟩ := gameLoop_ticks scenarioRight 310 (fun _ _ => 0) 311
    ⟨by decide, by decide⟩ (by decide) (by decide) (by decide)
  rw [h] at hs
  simp only [LoopResult.state?, Option.map_some', Option.some.injEq] at hs
  obtain ⟨hn, ha⟩ := hc hs
  have h2 : (scenarioRight.accumulator + (310 - scenarioRight.lastUpdateTime)) /
      scenarioRight.speed = 2 := by decide
  have h310 : scenarioRight.accumulator + (310 - scenarioRight.lastUpdateTime) = 310 := by
    decide
  have h150 : scenarioRight.speed = 150 := by decide
  rw [h2] at hn ha
  rw [h310, h150] at ha
  exact ⟨g1, n, h, by exact_mod_cast hn, by omega⟩

/-- The reachable state `fed 4` (speed 150, score 40, food just ahead) in a
frame with `A = 440`: `floor(A / T) = 2` and `A - 2 T = 140`, but the first
tick eats, the speed drops to 140, and the loop goes on with the new speed:
`update` is called 3 times and the accumulator is left at 20. -/
theorem gameLoop_speed_change_extra_tick :
    Reachable 20 (fed 4) ∧ (fed 4).speed = 150 ∧
      (fed 4).accumulator + (440 - (fed 4).lastUpdateTime) = 440 ∧
      (440 : Int) / 150 = 2 ∧ (440 : Int) - 440 / 150 * 150 = 140 ∧
      (gameLoop (fed 4) 440 (fun _ => rndAt 0 0) 10).calls? = some 3 ∧
      (gameLoop (fed 4) 440 (fun _ => rndAt 0 0) 10).state?.map
        (fun s => (s.accumulator, s.speed)) = some (20, 140) := by
  have hu : update (frameStart (fed 4) 440) (rndAt 0 0) =
      some { grown (frameStart (fed 4) 440) { x := 15, y := 10 } with
             food := { x := 0, y := 0 }, speed := 140, interpolationFactor := 0 } :=
    update_meal (frameStart (fed 4) 440) _ { x := 15, y := 10 } { x := 0, y := 0 } rfl
      (by decide) (by decide) (by decide) (by decide) (by decide) (by decide) (by decide)
      (by decide)
  have hstep := tickLoop_succ_of_update (fun _ => rndAt 0 0) 9 (frameStart (fed 4) 440) _ 0
    (by decide) hu
  obtain ⟨hc, hs⟩ := gameLoop_calls (fed 4) 440 (fun _ => rndAt 0 0) 10
  refine ⟨reachable_fed 4 (by decide), by decide, by decide, by decide, by decide, ?_, ?_⟩
  · rw [hc, hstep]
    decide
  · rw [hs, hstep]
    decide

/-- C16, as the code has it. For timestamps that never go back (each at or
after the one before, the first at or after `lastUpdateTime`), from a state
with a non-negative accumulator, the speed on the schedule and a snake with a
head, every frame ends (for every bound `fuel` on the loop passes above the
time elapsed) and the interpolation factor it leaves, `accumulator / speed`,
lies in `[0,1)`. -/
theorem frames_interpolation (rndss : Nat → Nat → Nat → ℚ) (fuel : Nat) (ts : List Int) :
    ∀ (g : SnakeGame) (k : Nat), SpeedOk g → g.snake ≠ [] → 0 ≤ g.accumulator →
      List.Chain (fun a b => a ≤ b) g.lastUpdateTime ts →
      (∀ t ∈ ts, g.accumulator + (t - g.lastUpdateTime) < fuel) →
      ∃ l, frames rndss fuel g k ts = some l ∧ l.length = ts.length ∧
        ∀ p ∈ l, 0 ≤ p.2.interpolationFactor ∧ p.2.interpolationFactor < 1 := by
  induction ts with
  | nil =>
    intro g k _ _ _ _ _
    exact ⟨[], rfl, rfl, fun p hp => absurd hp (List.not_mem_nil p)⟩
  | cons t ts ih =>
    intro g k hok hne hacc hchain hfuel
    obtain ⟨hle, hrest⟩ := List.chain_cons.1 hchain
    have hA : 0 ≤ g.accumulator + (t - g.lastUpdateTime) := by omega
    have hAf : g.accumulator + (t - g.lastUpdateTime) < fuel := hfuel t (List.mem_cons_self t ts)
    have hpos : 0 < fuel := by
      have : (0 : Int) < (fuel : Int) := lt_of_le_of_lt hA hAf
      exact_mod_cast this
    obtain ⟨g1, n, hloop, h1, h2, -, h4, h5, h6, -, h8, h9, -⟩ :=
      gameLoop_spec g t (rndss k) fuel hok hne hpos hAf
    have hacc1 : 0 ≤ g1.accumulator := h5 hA
    obtain ⟨l, hl, hlen, hall⟩ := ih g1 (k + 1) h1 h2 hacc1 (h6 ▸ hrest) (by
      intro t1 ht1
      have := hfuel t1 (List.mem_cons_of_mem t ht1)
      rw [h6]
      omega)
    refine ⟨(n, g1) :: l, ?_, by simp [hlen], ?_⟩
    · simp only [frames, hloop, hl, Option.map_some']
    · intro p hp
      rcases List.mem_cons.1 hp with rfl | hp
      · have hs : (0 : ℚ) < (g1.speed : ℚ) := by
          have : (0 : Int) < g1.speed := by have := h1.1; omega
          exact_mod_cast this
        have ha0 : (0 : ℚ) ≤ (g1.accumulator : ℚ) := by exact_mod_cast hacc1
        have ha1 : (g1.accumulator : ℚ) < (g1.speed : ℚ) := by exact_mod_cast h4
        show 0 ≤ g1.interpolationFactor ∧ g1.interpolationFactor < 1
        rw [h8]
        exact ⟨div_nonneg ha0 hs.le, (div_lt_one hs).2 ha1⟩
      · exact hall p hp

/-- The first three frames of the example, at 0, 160 and 310 ms with tick
interval 150: every interpolation factor is in `[0,1)`. -/
theorem frames_interpolation_witness :
    ∃ l, frames (fun _ _ _ => 0) 311 scenarioRight 0 [0, 160, 310] = some l ∧ l.length = 3 ∧
      ∀ p ∈ l, 0 ≤ p.2.interpolationFactor ∧ p.2.interpolationFactor < 1 :=
  frames_interpolation (fun _ _ _ => 0) 311 [0, 160, 310] scenarioRight 0
    ⟨by decide, by decide⟩ (by decide) (by decide)
    (List.Chain.cons (by decide)
      (List.Chain.cons (by decide) (List.Chain.cons (by decide) List.Chain.nil)))
    (by decide)

/-- The example of four frames at 0, 160, 310 and 155 ms with tick interval
150: the calls of `update` per frame are 0, 1, 1 and 0, and the last frame,
whose timestamp goes back, leaves the accumulator at -145 and the
interpolation factor at -29/30, below 0. -/
theorem frames_backwards_timestamp :
    scenarioRight.speed = 150 ∧
    (frames (fun _ _ _ => 0) 10 scenarioRight 0 [0, 160, 310, 155]).map
        (List.map Prod.fst) = some [0, 1, 1, 0] ∧
    (frames (fun _ _ _ => 0) 10 scenarioRight 0 [0, 160, 310, 155]).map
        (List.map (fun p => p.2.accumulator)) = some [0, 10, 10, -145] ∧
    (frames (fun _ _ _ => 0) 10 scenarioRight 0 [0, 160, 310, 155]).map
        (List.map (fun p => p.2.interpolationFactor)) = some [0, 1 / 15, 1 / 15, -29 / 30] ∧
    (-29 / 30 : ℚ) < 0 := by
  have hq : (frames (fun _ _ _ => 0) 10 scenarioRight 0 [0, 160, 310, 155]).map
      (List.map (fun p => p.2.interpolationFactor)) =
      some [((0 : Int) : ℚ) / ((150 : Int) : ℚ), ((10 : Int) : ℚ) / ((150 : Int) : ℚ),
        ((10 : Int) : ℚ) / ((150 : Int) : ℚ), ((-145 : Int) : ℚ) / ((150 : Int) : ℚ)] := by
    rfl
  refine ⟨by decide, by decide, by decide, ?_, by norm_num⟩
  rw [hq]
  norm_num

end SnakeGame
